import Mathlib

/-!
Verification of the CFD compute-worker's study execution engine.

The definitions below are a shallow embedding of the worker's source:
  * `study.js`   — class `Study` (stage pipelines, abort operations,
    argument validation of `execute`, zip extraction), and the
    repository client class `Alfresco` (chunked `upload`).

External effects (repository HTTP calls, child processes, the file
system) are modelled by environment records that fix the outcome of
every effectful step of one run, and each pipeline run is a pure
function from such an environment to the list of observable events it
emits together with the outcome of the returned promise.
-/

/-! ### String helpers (substring search and JS `String.replace`) -/

/-- Tests whether `pat` is an initial segment of `l`. -/
def leadsWithL : List Char → List Char → Bool
  | [], _ => true
  | _ :: _, [] => false
  | p :: ps, c :: cs => p == c && leadsWithL ps cs

/-- Tests whether `pat` occurs contiguously inside `l`. -/
def containsL (pat : List Char) : List Char → Bool
  | [] => pat.isEmpty
  | c :: rest => leadsWithL pat (c :: rest) || containsL pat rest

/-- Substring test on strings: does `s` contain `pat`? -/
def strContains (s pat : String) : Bool :=
  containsL pat.data s.data

/-- The JS replace method with a string pattern replaces only the
first occurrence of the pattern, as the path interpolation of
`execute` does for the scriptDir and studyDir placeholders. -/
def replaceFirstL (pat rep : List Char) : List Char → List Char
  | [] => []
  | c :: rest =>
    if leadsWithL pat (c :: rest) then rep ++ (c :: rest).drop pat.length
    else c :: replaceFirstL pat rep rest

def replaceFirst (pat rep s : String) : String :=
  ⟨replaceFirstL pat.data rep.data s.data⟩

theorem containsL_append_right (pat b : List Char) (h : containsL pat b = true) :
    ∀ a : List Char, containsL pat (a ++ b) = true := by
  intro a
  induction a with
  | nil => simpa using h
  | cons c rest ih =>
    cases b with
    | nil => simp [containsL] at h ⊢; cases rest <;> simp_all [containsL]
    | cons d l =>
      simp only [List.cons_append, containsL, Bool.or_eq_true]
      exact Or.inr ih

theorem strContains_append_right (a b pat : String) (h : strContains b pat = true) :
    strContains (a ++ b) pat = true := by
  cases a with
  | mk da =>
    cases b with
    | mk db =>
      simpa [strContains, String.data] using containsL_append_right pat.data db h da

/-! ### Task statuses and stages (`study.js` constants) -/

inductive TaskStatus
  | TODO | PENDING | RUNNING | DONE | FAILED
deriving DecidableEq, Repr

/-- String form of a status, as it is concatenated into JS error
messages like `"Invalid meshing status: " + m.status`. -/
def TaskStatus.str : TaskStatus → String
  | .TODO => "TODO"
  | .PENDING => "PENDING"
  | .RUNNING => "RUNNING"
  | .DONE => "DONE"
  | .FAILED => "FAILED"

def TaskStatus.isTerminal : TaskStatus → Bool
  | .DONE => true
  | .FAILED => true
  | _ => false

inductive Stage
  | meshing | simulation | postproc
deriving DecidableEq, Repr

/-- Matching against `REGEXP_SIMULATION_ERROR`, the alternation of
"FOAM FATAL ERROR", "a divergé" and "commande introuvable": a string
matches iff it contains one of the three alternatives. -/
def simErrorMatch (s : String) : Bool :=
  strContains s "FOAM FATAL ERROR" || strContains s "a divergé" ||
    strContains s "commande introuvable"

/-! ### Chunked upload (`Alfresco.upload`)

`CHUNK_SIZE = 8 * 1024 * 1024`.  `upload` computes
`numChunks = Math.floor(fileSize / CHUNK_SIZE) + (fileSize % CHUNK_SIZE !== 0 ? 1 : 0)`,
then `uploadChunk` reads up to `CHUNK_SIZE` bytes sequentially, issues a
PUT with `isLastChunk = (counter >= numChunks)`, increments `counter`
after a successful PUT and stops exactly when the flag was true. -/

def CHUNK_SIZE : Nat := 8 * 1024 * 1024

def numChunks (fileSize : Nat) : Nat :=
  fileSize / CHUNK_SIZE + (if fileSize % CHUNK_SIZE = 0 then 0 else 1)

structure PutReq where
  size : Nat
  isLastChunk : Bool
deriving DecidableEq, Repr

/-- One `uploadChunk` recursion: `pos` is the file offset reached by the
sequential reads (`Fs.read` with position `null`), `counter` the number
of PUTs already acknowledged.  The fuel argument is an artifact of the
embedding; `numChunks n + 1` iterations always suffice because `counter`
starts at `0`, increases by one per PUT and the loop stops at the PUT
whose `counter ≥ numChunks n`. -/
def uploadGo (n : Nat) : Nat → Nat → Nat → List PutReq
  | 0, _, _ => []
  | fuel + 1, counter, pos =>
    let bytesRead := min CHUNK_SIZE (n - pos)
    let isLast := decide (numChunks n ≤ counter)
    ⟨bytesRead, isLast⟩ ::
      (if isLast then [] else uploadGo n fuel (counter + 1) (pos + bytesRead))

/-- The PUT requests issued by `Alfresco.upload` for a local file of
`n` bytes. -/
def uploadPuts (n : Nat) : List PutReq :=
  uploadGo n (numChunks n + 1) 0 0

theorem uploadGo_length (n : Nat) :
    ∀ fuel counter pos, counter + fuel = numChunks n + 1 →
      (uploadGo n fuel counter pos).length = fuel := by
  intro fuel
  induction fuel with
  | zero => intro counter pos _; rfl
  | succ f ih =>
    intro counter pos h
    by_cases hc : numChunks n ≤ counter
    · have : f = 0 := by omega
      subst this
      simp [uploadGo, hc]
    · simp only [uploadGo, List.length_cons]
      rw [if_neg (by simpa using hc)]
      rw [ih (counter + 1) _ (by omega)]

theorem uploadPuts_length (n : Nat) : (uploadPuts n).length = numChunks n + 1 :=
  uploadGo_length n (numChunks n + 1) 0 0 (by omega)

theorem uploadGo_isLast (n : Nat) :
    ∀ fuel counter pos, fuel ≠ 0 → counter + fuel = numChunks n + 1 →
      (uploadGo n fuel counter pos).map PutReq.isLastChunk =
        List.replicate (fuel - 1) false ++ [true] := by
  intro fuel
  induction fuel with
  | zero => intro counter pos h0 _; exact absurd rfl h0
  | succ f ih =>
    intro counter pos _ h
    by_cases hc : numChunks n ≤ counter
    · have : f = 0 := by omega
      subst this
      simp [uploadGo, hc]
    · have hf : f ≠ 0 := by omega
      simp only [uploadGo, List.map_cons]
      rw [if_neg (by simpa using hc)]
      rw [ih (counter + 1) _ hf (by omega)]
      have : decide (numChunks n ≤ counter) = false := by simpa using hc
      rw [this]
      cases f with
      | zero => exact absurd rfl hf
      | succ f' => simp [List.replicate_succ]

/-- Only the final PUT of an upload carries `isLastChunk = true`. -/
theorem uploadPuts_isLast (n : Nat) :
    (uploadPuts n).map PutReq.isLastChunk =
      List.replicate (numChunks n) false ++ [true] := by
  have := uploadGo_isLast n (numChunks n + 1) 0 0 (by omega) (by omega)
  simpa [uploadPuts] using this

theorem le_numChunks_mul (n : Nat) : n ≤ numChunks n * CHUNK_SIZE := by
  simp only [numChunks, CHUNK_SIZE]
  by_cases hm : n % (8 * 1024 * 1024) = 0 <;> simp [hm, Nat.add_mul] <;> omega

theorem uploadGo_pos (n : Nat) :
    ∀ fuel counter, counter + fuel = numChunks n + 1 →
      ∀ q ∈ uploadGo n fuel counter (min (counter * CHUNK_SIZE) n),
        q.isLastChunk = true → q.size = 0 := by
  intro fuel
  induction fuel with
  | zero => intro counter h q hq; simp [uploadGo] at hq
  | succ f ih =>
    intro counter h q hq hlast
    simp only [uploadGo, List.mem_cons] at hq
    by_cases hc : numChunks n ≤ counter
    · -- the final iteration: everything has been read, `bytesRead = 0`
      have hread : n ≤ counter * CHUNK_SIZE :=
        le_trans (le_numChunks_mul n) (Nat.mul_le_mul_right _ hc)
      rcases hq with hq | hq
      · subst hq; simp; omega
      · rw [if_pos (by simpa using hc)] at hq
        simp at hq
    · rcases hq with hq | hq
      · subst hq
        simp only at hlast
        rw [decide_eq_true_iff] at hlast
        exact absurd hlast hc
      · rw [if_neg (by simpa using hc)] at hq
        have hstep : min (counter * CHUNK_SIZE) n +
            min CHUNK_SIZE (n - min (counter * CHUNK_SIZE) n) =
            min ((counter + 1) * CHUNK_SIZE) n := by
          have : (counter + 1) * CHUNK_SIZE = counter * CHUNK_SIZE + CHUNK_SIZE := by ring
          omega
        rw [hstep] at hq
        exact ih (counter + 1) (by omega) q hq hlast

/-- The final PUT of an upload always carries an empty body: by the time
`counter` reaches `numChunks`, the sequential reads have exhausted the
file and `bytesRead = 0`. -/
theorem uploadPuts_last_empty (n : Nat) :
    ∀ q ∈ uploadPuts n, q.isLastChunk = true → q.size = 0 := by
  have := uploadGo_pos n (numChunks n + 1) 0 (by omega)
  simpa [uploadPuts] using this

/-! ### Zip extraction (`Study.extract`)

`extract` pipes the archive through a streaming unzip parser.  For every
entry of type File it writes the basename of the entry path under
the workspace path with the entry bytes; every other entry (a
Directory entry) is drained and
discarded.  Entries are processed in archive order, so a later file entry
overwrites an earlier one that flattens to the same basename. -/

inductive EntryType
  | file | directory
deriving DecidableEq, Repr

structure ZipEntry where
  path : String
  type : EntryType
  content : String
deriving DecidableEq, Repr

/-- Basename (as in `Path.basename`) for the paths that occur inside
zip archives: the part after the last slash.  (File entries never end
in a slash.) -/
def basename (p : String) : String :=
  ⟨(p.data.reverse.takeWhile (fun c => c ≠ '/')).reverse⟩

/-- The workspace file written for a file entry. -/
def entryDest (ws : String) (e : ZipEntry) : String :=
  ws ++ "/" ++ basename e.path

/-- The workspace contents produced by `Study.extract`, as a partial map
from file name to file content; `none` means no file was written there. -/
def extractFs (ws : String) (entries : List ZipEntry) : String → Option String :=
  entries.foldl
    (fun fs e =>
      if e.type = EntryType.file then Function.update fs (entryDest ws e) (some e.content)
      else fs)
    (fun _ => none)

/-- The last file entry of `entries` whose flattened destination is
`name` — the entry whose content survives extraction at `name`. -/
def lastFileEntryAt (ws name : String) (entries : List ZipEntry) : Option ZipEntry :=
  entries.foldl
    (fun acc e =>
      if e.type = EntryType.file ∧ entryDest ws e = name then some e else acc)
    none

theorem lastFileEntryAt_from (ws name : String) (entries : List ZipEntry)
    (acc : Option ZipEntry) :
    entries.foldl
        (fun acc e =>
          if e.type = EntryType.file ∧ entryDest ws e = name then some e else acc)
        acc =
      match lastFileEntryAt ws name entries with
      | some e => some e
      | none => acc := by
  induction entries generalizing acc with
  | nil => simp [lastFileEntryAt]
  | cons e rest ih =>
    simp only [lastFileEntryAt, List.foldl_cons]
    rw [ih, ih (if e.type = EntryType.file ∧ entryDest ws e = name then some e else none)]
    cases lastFileEntryAt ws name rest with
    | some e' => rfl
    | none =>
      by_cases hP : e.type = EntryType.file ∧ entryDest ws e = name <;> simp [hP]

theorem lastFileEntryAt_cons (ws name : String) (e : ZipEntry) (rest : List ZipEntry) :
    lastFileEntryAt ws name (e :: rest) =
      match lastFileEntryAt ws name rest with
      | some e' => some e'
      | none => if e.type = EntryType.file ∧ entryDest ws e = name then some e else none := by
  show List.foldl _ _ rest = _
  rw [lastFileEntryAt_from]

theorem extractFs_go (ws name : String) (entries : List ZipEntry) :
    ∀ fs : String → Option String,
      entries.foldl
          (fun fs e =>
            if e.type = EntryType.file then
              Function.update fs (entryDest ws e) (some e.content)
            else fs)
          fs name =
        match lastFileEntryAt ws name entries with
        | some e => some e.content
        | none => fs name := by
  induction entries with
  | nil => intro fs; simp [lastFileEntryAt]
  | cons e rest ih =>
    intro fs
    simp only [List.foldl_cons]
    rw [ih, lastFileEntryAt_cons]
    cases lastFileEntryAt ws name rest with
    | some e' => rfl
    | none =>
      by_cases hf : e.type = EntryType.file
      · by_cases hd : entryDest ws e = name
        · subst hd
          simp [hf, Function.update_same]
        · have hP : ¬ (e.type = EntryType.file ∧ entryDest ws e = name) := by
            intro h; exact hd h.2
          simp only [if_pos hf, if_neg hP]
          rw [Function.update_noteq (fun h => hd h.symm)]
      · have hP : ¬ (e.type = EntryType.file ∧ entryDest ws e = name) := by
          intro h; exact hf h.1
        simp [hf, hP]

/-- What `Study.extract` leaves in the workspace, characterised entry by
entry: the file written at `name` carries the content of the **last**
file entry flattening to `name`, and nothing else (in particular no
directory entry) produces a file. -/
theorem extractFs_eq_lastFileEntry (ws name : String) (entries : List ZipEntry) :
    extractFs ws entries name =
      match lastFileEntryAt ws name entries with
      | some e => some e.content
      | none => none :=
  extractFs_go ws name entries (fun _ => none)

/-! ### Argument builder of `Study.execute`

`execute` interpolates `{scriptDir}`/`{studyDir}` into every string
value, pushes `opt` and `val` tokens in order, and validates values
typed d/dir or f/file against the file system *before*
`spawn` is called; a failed check throws a `ConfigurationError`, so no
child process is spawned.  A d-typed value that is missing is created
when `createIfMissing` is set (and the freshly created directory then
passes the `isDirectory` check). -/

inductive FsNode
  | file | dir
deriving DecidableEq, Repr

/-- Abstract file system: `none` means the path does not exist. -/
def FsModel : Type := String → Option FsNode

inductive ArgTy
  | d | f
deriving DecidableEq, Repr

/-- One argument descriptor, e.g.
`{ opt: "-p_freq", val: "{studyDir}/frequencesVent", type: "f" }`.
Number values are rendered as the strings `spawn` would receive. -/
structure ArgDesc where
  opt : Option String
  val : Option String
  ty : Option ArgTy
  createIfMissing : Bool
deriving DecidableEq, Repr

/-- The path interpolation of `Study.execute`: replace the first
occurrence of the scriptDir placeholder, then the first occurrence of
the studyDir placeholder. -/
def interpolatePath (scriptDir studyDir p : String) : String :=
  replaceFirst "{studyDir}" studyDir (replaceFirst "{scriptDir}" scriptDir p)

/-- State of the argument loop: tokens pushed so far and the (possibly
mutated, via `mkdirSync`) file system. -/
structure VState where
  argv : List String
  fs : FsModel

/-- Processing of a single descriptor; `.error` is the message of the
`ConfigurationError` thrown by `execute`. -/
def checkArg (scriptDir studyDir : String) (st : VState) (a : ArgDesc) :
    Except String VState :=
  let st := match a.opt with
    | some o => ⟨st.argv ++ [o], st.fs⟩
    | none => st
  match a.val with
  | none => .ok st
  | some v0 =>
    let v := interpolatePath scriptDir studyDir v0
    let st : VState := ⟨st.argv ++ [v], st.fs⟩
    match a.ty with
    | none => .ok st
    | some .d =>
      match st.fs v with
      | none =>
        if a.createIfMissing then .ok ⟨st.argv, Function.update st.fs v (some FsNode.dir)⟩
        else .error (v ++ " not found")
      | some .dir => .ok st
      | some .file => .error (v ++ " is not a directory")
    | some .f =>
      match st.fs v with
      | none => .error (v ++ " not found")
      | some .file => .ok st
      | some .dir => .error (v ++ " is not a file")

/-- The whole pre-spawn argument pass of `Study.execute`: descriptors are
processed left to right and the first `ConfigurationError` aborts the
pass (and hence the spawn). -/
def validateArgs (scriptDir studyDir : String) (fs : FsModel) (args : List ArgDesc) :
    Except String VState :=
  args.foldlM (checkArg scriptDir studyDir) ⟨[], fs⟩

theorem foldlM_except_append {α β : Type} (f : β → α → Except String β) :
    ∀ (l1 l2 : List α) (b : β),
      (l1 ++ l2).foldlM f b =
        match l1.foldlM f b with
        | .ok b' => l2.foldlM f b'
        | .error e => .error e := by
  intro l1
  induction l1 with
  | nil => intro l2 b; rfl
  | cons a rest ih =>
    intro l2 b
    simp only [List.cons_append, List.foldlM_cons]
    cases f b a with
    | ok b' => simpa using ih l2 b'
    | error e => rfl

/-! ### Observable events of one pipeline run

Each constructor corresponds to one call site in `study.js`:
repository claim calls, active-study registry mutation (`StudyCache`),
workspace `mkdirSync` (`setup`), child-process spawns (`execute`),
streaming zip extraction, task updates (`<stage>TaskUpdate`), the
process-group kill of the abort paths, and `Logger.error`. -/

inductive Prog
  | rm | zipA | zipX | preproc | simulation | emiCalc | meanAndConcat
  | probesMeanYear | polluant
deriving DecidableEq, Repr

inductive Site
  | progress | finalizer | abortPath
deriving DecidableEq, Repr

inductive Event
  | claimReq (st : Stage) (ref : String)
  | register
  | unregister
  | mkdirWs
  | spawn (p : Prog)
  | extractZip
  | update (site : Site) (st : Stage) (ref : String) (stage : Option String)
      (status : TaskStatus) (stdout stderr : Option String)
  | killGroup
  | logError
deriving DecidableEq, Repr

def Event.isFinalUpd : Event → Bool
  | .update .finalizer _ _ _ _ _ _ => true
  | _ => false

def Event.isSpawn : Event → Bool
  | .spawn _ => true
  | _ => false

def Event.isSpawnOf (ev : Event) (p : Prog) : Bool :=
  match ev with
  | .spawn q => q == p
  | _ => false

def Event.isMkdir : Event → Bool
  | .mkdirWs => true
  | _ => false

def Event.isReg : Event → Bool
  | .register => true
  | _ => false

def Event.isLog : Event → Bool
  | .logError => true
  | _ => false

def Event.isKill : Event → Bool
  | .killGroup => true
  | _ => false

def Event.isClaim : Event → Bool
  | .claimReq _ _ => true
  | _ => false

/-- The statuses carried by the finaliser-issued task updates of a
trace. -/
def finalStatuses (tr : List Event) : List TaskStatus :=
  tr.filterMap fun ev =>
    match ev with
    | .update .finalizer _ _ _ st _ _ => some st
    | _ => none

/-- The stderr payloads carried by the finaliser-issued task updates of
a trace. -/
def finalStderrs (tr : List Event) : List (Option String) :=
  tr.filterMap fun ev =>
    match ev with
    | .update .finalizer _ _ _ _ _ serr => some serr
    | _ => none

/-- Process results and rejections of `Study.execute`. -/
structure ExecResult where
  stdout : String
  stderr : String
deriving DecidableEq, Repr

structure ExecFailure where
  code : Int
  signal : Option String
  stdout : String
  stderr : String
deriving DecidableEq, Repr

/-- A rejection travelling down a pipeline: either a thrown JS `Error`
(only its message matters) or the `{code, signal, stdout, stderr}`
object `execute` rejects with (`errOrResult instanceof Error` is the
discriminator used by every `.catch`). -/
inductive StepErr
  | jsError (msg : String)
  | procFail (f : ExecFailure)
deriving DecidableEq, Repr

instance {ε α : Type} [DecidableEq ε] [DecidableEq α] : DecidableEq (Except ε α) :=
  fun a b =>
    match a, b with
    | .ok x, .ok y =>
      if h : x = y then isTrue (by rw [h]) else isFalse (by intro hc; cases hc; exact h rfl)
    | .error x, .error y =>
      if h : x = y then isTrue (by rw [h]) else isFalse (by intro hc; cases hc; exact h rfl)
    | .ok _, .error _ => isFalse (by intro hc; cases hc)
    | .error _, .ok _ => isFalse (by intro hc; cases hc)

/-- An `execute` call either throws a `ConfigurationError` during the
pre-spawn argument pass — no child is spawned — or spawns the program
and settles with its outcome. -/
inductive ExecOutcome
  | configErr (msg : String)
  | spawned (r : Except ExecFailure ExecResult)
deriving DecidableEq, Repr

/-- Result of one pipeline run: the events it emitted and the settled
state of the promise `start<Stage>`/`postproc` returned. -/
structure RunOut where
  trace : List Event
  outcome : Except String Unit

/-- The `.then/.catch` chained onto the finaliser's task update: a
rejected update call, or a response status that disagrees with the
locally decided one, is only passed to `Logger.error`. -/
def logTail (decided : TaskStatus) : Except String TaskStatus → List Event
  | .error _ => [.logError]
  | .ok st => if st = decided then [] else [.logError]

/-- Events legal before the finaliser's update: anything but a
finaliser update or a log entry. -/
def Event.preFinal : Event → Bool
  | .update .finalizer _ _ _ _ _ _ => false
  | .logError => false
  | _ => true

theorem logTail_all (decided : TaskStatus) (resp : Except String TaskStatus)
    (P : Event → Bool) (h : P .logError = true) : (logTail decided resp).all P = true := by
  cases resp with
  | error msg => simp [logTail, h]
  | ok st =>
    by_cases hst : st = decided <;> simp [logTail, hst, h]

theorem finalStatuses_append (a b : List Event) :
    finalStatuses (a ++ b) = finalStatuses a ++ finalStatuses b := by
  simp [finalStatuses]

theorem finalStderrs_append (a b : List Event) :
    finalStderrs (a ++ b) = finalStderrs a ++ finalStderrs b := by
  simp [finalStderrs]

theorem finalStatuses_of_preFinal (tr : List Event) (h : tr.all Event.preFinal = true) :
    finalStatuses tr = [] := by
  induction tr with
  | nil => rfl
  | cons ev rest ih =>
    simp only [List.all_cons, Bool.and_eq_true] at h
    have hrest := ih h.2
    have hev := h.1
    cases ev
    case update site st r lbl stt o err =>
      cases site <;> simp_all [finalStatuses, Event.preFinal]
    all_goals simpa [finalStatuses] using hrest

theorem finalStderrs_of_preFinal (tr : List Event) (h : tr.all Event.preFinal = true) :
    finalStderrs tr = [] := by
  induction tr with
  | nil => rfl
  | cons ev rest ih =>
    simp only [List.all_cons, Bool.and_eq_true] at h
    have hrest := ih h.2
    have hev := h.1
    cases ev
    case update site st r lbl stt o err =>
      cases site <;> simp_all [finalStderrs, Event.preFinal]
    all_goals simpa [finalStderrs] using hrest

theorem finalStatuses_logTail (decided : TaskStatus) (resp : Except String TaskStatus) :
    finalStatuses (logTail decided resp) = [] := by
  cases resp with
  | error msg => rfl
  | ok st => by_cases hst : st = decided <;> simp [logTail, hst, finalStatuses]

theorem finalStderrs_logTail (decided : TaskStatus) (resp : Except String TaskStatus) :
    finalStderrs (logTail decided resp) = [] := by
  cases resp with
  | error msg => rfl
  | ok st => by_cases hst : st = decided <;> simp [logTail, hst, finalStderrs]

/-! ### Meshing pipeline (`Study.startMeshing`) -/

/-- The in-memory meshing task record `self.meshing`; `none` fields
stand for JS `undefined`. -/
structure MTask where
  status : TaskStatus
  stage : Option String
  stdout : Option String
  stderr : Option String
deriving DecidableEq, Repr

/-- Outcomes of every effectful step of one `startMeshing` run.
`inRegistry` is whether `StudyCache` already holds the study's
reference when the run starts. -/
structure MeshEnv where
  inRegistry : Bool
  claim : Except String TaskStatus
  dirExists : Bool
  rmOut : Except ExecFailure ExecResult
  updDownload : Except String Unit
  getFolder : Except String String
  download : Except String Unit
  updExtraction : Except String Unit
  extract : Except String Unit
  updMeshing : Except String Unit
  preprocExec : ExecOutcome
  updCompress : Except String Unit
  compressExec : ExecOutcome
  finalResp : Except String TaskStatus

/-- The catch handler of `startMeshing`: a thrown `Error` *replaces*
`self.meshing` with a fresh record whose `stdout` stays undefined (the
source assigns the misspelled field `stdour`), while an `execute`
rejection mutates the existing record's streams and status. -/
def mCatch (m : MTask) : StepErr → MTask
  | .jsError msg => ⟨.FAILED, none, none, some msg⟩
  | .procFail f => ⟨.FAILED, m.stage, some f.stdout, some f.stderr⟩

/-- The finally handler of `startMeshing`: unregister from `StudyCache`, then —
`self.meshing` is always set once the claim call has settled — send the
final meshing-task update and only log a disagreeing or failed
response. -/
def mFinalize (ref : String) (tr : List Event) (m : MTask)
    (resp : Except String TaskStatus) : RunOut :=
  ⟨tr ++
      [.unregister,
        .update .finalizer .meshing ref m.stage m.status m.stdout m.stderr] ++
      logTail m.status resp,
    .ok ()⟩

/-- The meshing chain once the claim returned RUNNING and the study was
registered: cleanup, setup, progress updates, input download, zip
extraction, `preproc`, compression, then DONE. -/
def meshingSteps (ref : String) (e : MeshEnv) (m0 : MTask) : RunOut :=
  let tr1 := [Event.claimReq .meshing ref, Event.register] ++
    (if e.dirExists then [Event.spawn .rm] else [])
  match (if e.dirExists then e.rmOut else .ok ⟨"", ""⟩ : Except ExecFailure ExecResult) with
  | .error f => mFinalize ref tr1 (mCatch m0 (.procFail f)) e.finalResp
  | .ok _ =>
    -- `setup()`: the workspace was just removed, so it is recreated
    let tr2 := tr1 ++ [Event.mkdirWs]
    let m1 : MTask := ⟨m0.status, some "download input folder", m0.stdout, m0.stderr⟩
    let tr3 := tr2 ++ [Event.update .progress .meshing ref m1.stage m1.status none none]
    match e.updDownload with
    | .error msg => mFinalize ref tr3 (mCatch m1 (.jsError msg)) e.finalResp
    | .ok _ =>
      match e.getFolder with
      | .error msg => mFinalize ref tr3 (mCatch m1 (.jsError msg)) e.finalResp
      | .ok _ =>
        match e.download with
        | .error msg => mFinalize ref tr3 (mCatch m1 (.jsError msg)) e.finalResp
        | .ok _ =>
          let m2 : MTask := ⟨m1.status, some "extraction", m1.stdout, m1.stderr⟩
          let tr4 := tr3 ++ [Event.update .progress .meshing ref m2.stage m2.status none none]
          match e.updExtraction with
          | .error msg => mFinalize ref tr4 (mCatch m2 (.jsError msg)) e.finalResp
          | .ok _ =>
            let tr5 := tr4 ++ [Event.extractZip]
            match e.extract with
            | .error msg => mFinalize ref tr5 (mCatch m2 (.jsError msg)) e.finalResp
            | .ok _ =>
              let m3 : MTask := ⟨m2.status, some "meshing", m2.stdout, m2.stderr⟩
              let tr6 := tr5 ++ [Event.update .progress .meshing ref m3.stage m3.status none none]
              match e.updMeshing with
              | .error msg => mFinalize ref tr6 (mCatch m3 (.jsError msg)) e.finalResp
              | .ok _ =>
                match e.preprocExec with
                | .configErr msg => mFinalize ref tr6 (mCatch m3 (.jsError msg)) e.finalResp
                | .spawned r =>
                  let tr7 := tr6 ++ [Event.spawn .preproc]
                  match r with
                  | .error f => mFinalize ref tr7 (mCatch m3 (.procFail f)) e.finalResp
                  | .ok res =>
                    let m5 : MTask := ⟨m3.status, some "compress", some res.stdout, some res.stderr⟩
                    let tr8 := tr7 ++ [Event.update .progress .meshing ref m5.stage m5.status none none]
                    match e.updCompress with
                    | .error msg => mFinalize ref tr8 (mCatch m5 (.jsError msg)) e.finalResp
                    | .ok _ =>
                      match e.compressExec with
                      | .configErr msg => mFinalize ref tr8 (mCatch m5 (.jsError msg)) e.finalResp
                      | .spawned rc =>
                        let tr9 := tr8 ++ [Event.spawn .zipA]
                        match rc with
                        | .error f => mFinalize ref tr9 (mCatch m5 (.procFail f)) e.finalResp
                        | .ok _ =>
                          mFinalize ref tr9 ⟨.DONE, some "done", m5.stdout, m5.stderr⟩ e.finalResp

/-- Models `Study.startMeshing` as a trace-producing function of its effect
environment.  Note that `self.meshing = m` is assigned *before* the
RUNNING check, so even a non-RUNNING claim leaves the finaliser with a
record to send. -/
def meshingRun (ref : String) (e : MeshEnv) : RunOut :=
  if e.inRegistry then ⟨[], .error "Study already under processing"⟩
  else
    match e.claim with
    | .error msg =>
      mFinalize ref [.claimReq .meshing ref]
        (mCatch ⟨.FAILED, none, none, none⟩ (.jsError msg)) e.finalResp
    | .ok st =>
      if st = .RUNNING then meshingSteps ref e ⟨st, none, none, none⟩
      else
        mFinalize ref [.claimReq .meshing ref]
          (mCatch ⟨st, none, none, none⟩
            (.jsError ("Invalid meshing status: " ++ st.str)))
          e.finalResp

/-- Any `startMeshing` run that passes the registry guard ends in the
finaliser with a pre-final trace and a terminal local status. -/
theorem meshingRun_shape (ref : String) (e : MeshEnv) (hReg : e.inRegistry = false) :
    ∃ (tr : List Event) (m : MTask),
      meshingRun ref e = mFinalize ref tr m e.finalResp ∧
        tr.all Event.preFinal = true ∧ m.status.isTerminal = true := by
  unfold meshingRun meshingSteps
  rw [hReg]
  simp only [Bool.false_eq_true, if_false]
  repeat' split
  all_goals exact ⟨_, _, rfl, by rfl, by rfl⟩

/-! ### Simulation pipeline (`Study.startSimulation`) -/

/-- The in-memory `self.result` of a simulation run: its `stdout` and
`stderr` are always strings (initialised to `""`). -/
structure SimRes where
  status : TaskStatus
  stage : Option String
  stdout : String
  stderr : String
deriving DecidableEq, Repr

structure SimEnv where
  inRegistry : Bool
  claim : Except String TaskStatus
  dirExists : Bool
  rmOut : Except ExecFailure ExecResult
  updUncompress : Except String Unit
  unzOut : Except ExecFailure ExecResult
  updSimulation : Except String Unit
  simExec : ExecOutcome
  updCompressing : Except String Unit
  compressExec : ExecOutcome
  finalResp : Except String TaskStatus

/-- The catch handler of `startSimulation`: mark FAILED and append the error
message (resp. the rejected execution's streams) to the accumulated
streams. -/
def sCatch (r : SimRes) : StepErr → SimRes
  | .jsError msg => ⟨.FAILED, r.stage, r.stdout, r.stderr ++ "\n" ++ msg⟩
  | .procFail f =>
    ⟨.FAILED, r.stage, r.stdout ++ "\n" ++ f.stdout, r.stderr ++ "\n" ++ f.stderr⟩

/-- The final-state rule of the simulation finaliser: a still-RUNNING
local result adopts `self.sim.status` when that is already terminal and
otherwise falls back to FAILED. -/
def sPromote (simStatus : TaskStatus) (r : SimRes) : SimRes :=
  if r.status = .RUNNING then
    ⟨if simStatus ≠ .RUNNING then simStatus else .FAILED, r.stage, r.stdout, r.stderr⟩
  else r

/-- The finally handler of `startSimulation`: the final update is sent iff the
claim was acquired (`self.sim` was assigned, which happens only after
the RUNNING check); `acquired` carries `self.sim.status`. -/
def sFinalize (simRef : String) (tr : List Event) (acquired : Option TaskStatus)
    (r : SimRes) (resp : Except String TaskStatus) : RunOut :=
  match acquired with
  | none => ⟨tr ++ [.unregister], .ok ()⟩
  | some ss =>
    ⟨tr ++
        [.unregister,
          .update .finalizer .simulation simRef (sPromote ss r).stage
            (sPromote ss r).status (some (sPromote ss r).stdout)
            (some (sPromote ss r).stderr)] ++
        logTail (sPromote ss r).status resp,
      .ok ()⟩

/-- The simulation chain once the claim returned RUNNING: cleanup,
uncompress of the meshing archive, the `simulation` program, the
output scan against `REGEXP_SIMULATION_ERROR`, compression. -/
def simulationSteps (simRef : String) (e : SimEnv) (r0 : SimRes) : RunOut :=
  let tr1 := [Event.claimReq .simulation simRef, Event.register] ++
    (if e.dirExists then [Event.spawn .rm] else [])
  match (if e.dirExists then e.rmOut else .ok ⟨"", ""⟩ : Except ExecFailure ExecResult) with
  | .error f => sFinalize simRef tr1 (some .RUNNING) (sCatch r0 (.procFail f)) e.finalResp
  | .ok _ =>
    let r1 : SimRes := ⟨r0.status, some "uncompress", r0.stdout, r0.stderr⟩
    let tr2 := tr1 ++
      [Event.update .progress .simulation simRef r1.stage r1.status
        (some r1.stdout) (some r1.stderr)]
    match e.updUncompress with
    | .error msg => sFinalize simRef tr2 (some .RUNNING) (sCatch r1 (.jsError msg)) e.finalResp
    | .ok _ =>
      let tr3 := tr2 ++ [Event.spawn .zipX]
      match e.unzOut with
      | .error f => sFinalize simRef tr3 (some .RUNNING) (sCatch r1 (.procFail f)) e.finalResp
      | .ok _ =>
        let r2 : SimRes := ⟨r1.status, some "simulation", r1.stdout, r1.stderr⟩
        let tr4 := tr3 ++
          [Event.update .progress .simulation simRef r2.stage r2.status
            (some r2.stdout) (some r2.stderr)]
        match e.updSimulation with
        | .error msg => sFinalize simRef tr4 (some .RUNNING) (sCatch r2 (.jsError msg)) e.finalResp
        | .ok _ =>
          match e.simExec with
          | .configErr msg =>
            sFinalize simRef tr4 (some .RUNNING) (sCatch r2 (.jsError msg)) e.finalResp
          | .spawned rs =>
            let tr5 := tr4 ++ [Event.spawn .simulation]
            match rs with
            | .error f =>
              sFinalize simRef tr5 (some .RUNNING) (sCatch r2 (.procFail f)) e.finalResp
            | .ok res =>
              -- `self.result = result; self.result.status = RUNNING` —
              -- the old record (and its stage) is replaced wholesale
              let ss : TaskStatus :=
                if simErrorMatch res.stderr || simErrorMatch res.stdout then .FAILED
                else .DONE
              let r4 : SimRes := ⟨.RUNNING, some "compressing", res.stdout, res.stderr⟩
              let tr6 := tr5 ++
                [Event.update .progress .simulation simRef r4.stage r4.status
                  (some r4.stdout) (some r4.stderr)]
              match e.updCompressing with
              | .error msg => sFinalize simRef tr6 (some ss) (sCatch r4 (.jsError msg)) e.finalResp
              | .ok _ =>
                match e.compressExec with
                | .configErr msg =>
                  sFinalize simRef tr6 (some ss) (sCatch r4 (.jsError msg)) e.finalResp
                | .spawned rc =>
                  let tr7 := tr6 ++ [Event.spawn .zipA]
                  match rc with
                  | .error f =>
                    sFinalize simRef tr7 (some ss) (sCatch r4 (.procFail f)) e.finalResp
                  | .ok _ => sFinalize simRef tr7 (some ss) r4 e.finalResp

/-- Models `Study.startSimulation` as a trace-producing function of its effect
environment.  `self.sim` is assigned only *after* the RUNNING check, so
an unacquired claim leaves the finaliser silent. -/
def simulationRun (simRef : String) (e : SimEnv) : RunOut :=
  if e.inRegistry then ⟨[], .error "Study already under processing"⟩
  else
    let r0 : SimRes := ⟨.RUNNING, none, "", ""⟩
    match e.claim with
    | .error msg =>
      sFinalize simRef [.claimReq .simulation simRef] none (sCatch r0 (.jsError msg))
        e.finalResp
    | .ok st =>
      if st = .RUNNING then simulationSteps simRef e r0
      else
        sFinalize simRef [.claimReq .simulation simRef] none
          (sCatch r0 (.jsError ("Invalid simulation status: " ++ st.str))) e.finalResp

/-- Pre-final events of a simulation trace: additionally, the
simulation pipeline never recreates the workspace. -/
def sPre (ev : Event) : Bool :=
  ev.preFinal && !ev.isMkdir

theorem simulationRun_shape_acquired (simRef : String) (e : SimEnv)
    (hReg : e.inRegistry = false) (hc : e.claim = .ok .RUNNING) :
    ∃ (tr : List Event) (ss : TaskStatus) (r : SimRes),
      simulationRun simRef e = sFinalize simRef tr (some ss) r e.finalResp ∧
        tr.all sPre = true ∧ (sPromote ss r).status.isTerminal = true := by
  unfold simulationRun simulationSteps
  rw [hReg, hc]
  simp only [Bool.false_eq_true, if_false, if_pos]
  repeat' split
  all_goals refine ⟨_, _, _, rfl, by rfl, ?_⟩
  all_goals simp only [sPromote, sCatch]
  all_goals rfl

theorem simulationRun_shape_unacquired (simRef : String) (e : SimEnv)
    (hReg : e.inRegistry = false) (hc : ∀ st, e.claim = .ok st → st ≠ .RUNNING) :
    ∃ (tr : List Event) (r : SimRes),
      simulationRun simRef e = sFinalize simRef tr none r e.finalResp ∧
        tr.all sPre = true := by
  unfold simulationRun
  rw [hReg]
  simp only [Bool.false_eq_true, if_false]
  cases hcl : e.claim with
  | error msg => exact ⟨_, _, rfl, by rfl⟩
  | ok st =>
    simp only [if_neg (hc st hcl)]
    exact ⟨_, _, rfl, by rfl⟩

/-! ### Post-processing pipeline (`Study.postproc`) -/

/-- The in-memory `self.result` of a post-processing run; it starts as
the bare `{ status: RUNNING }`, so its streams begin undefined. -/
structure PRes where
  status : TaskStatus
  stage : Option String
  stdout : Option String
  stderr : Option String
deriving DecidableEq, Repr

structure PostEnv where
  inRegistry : Bool
  dirExists : Bool
  claim : Except String TaskStatus
  rmOut : Except ExecFailure ExecResult
  updUncompress : Except String Unit
  unzOut : Except ExecFailure ExecResult
  getFolder : Except String String
  download : Except String Unit
  updExtraction : Except String Unit
  extract : Except String Unit
  updEmiCalc : Except String Unit
  emiCalcExec : ExecOutcome
  updMeanAndConcat : Except String Unit
  meanExec : ExecOutcome
  updProbes : Except String Unit
  probesExec : ExecOutcome
  updPolluant : Except String Unit
  polluantExec : ExecOutcome
  updCompress : Except String Unit
  compressExec : ExecOutcome
  updUploading : Except String Unit
  upload : Except String Unit
  finalResp : Except String TaskStatus

/-- The catch handler of `postproc`: a thrown `Error` stores its message as the
whole stderr and empties stdout; a rejected execution stores the
rejected streams. -/
def pCatch (r : PRes) : StepErr → PRes
  | .jsError msg => ⟨.FAILED, r.stage, some "", some msg⟩
  | .procFail f => ⟨.FAILED, r.stage, some f.stdout, some f.stderr⟩

/-- The finally handler of `postproc`: the final update is sent iff the claim was
acquired (`self.pp` set, which happens only after the RUNNING check). -/
def pFinalize (ref : String) (tr : List Event) (acquired : Bool) (r : PRes)
    (resp : Except String TaskStatus) : RunOut :=
  if acquired then
    ⟨tr ++
        [.unregister, .update .finalizer .postproc ref r.stage r.status r.stdout r.stderr] ++
        logTail r.status resp,
      .ok ()⟩
  else ⟨tr ++ [.unregister], .ok ()⟩

/-- Pre-final events of the post-claim part of a post-processing
trace: no finaliser update, no log, and also no workspace `mkdir` (the
only `setup()` of `postproc` runs before the claim). -/
def pPre (ev : Event) : Bool :=
  ev.preFinal && !ev.isMkdir

/-- Second half of the post-processing chain: the four analysis
programs, compression, upload, then DONE. -/
def postprocTail (ref : String) (e : PostEnv) (tr5 : List Event) (r2 : PRes) : RunOut :=
  let r3 : PRes := ⟨r2.status, some "emiCalc", r2.stdout, r2.stderr⟩
  let tr6 := tr5 ++
    [Event.update .progress .postproc ref r3.stage r3.status r3.stdout r3.stderr]
  match e.updEmiCalc with
  | .error msg => pFinalize ref tr6 true (pCatch r3 (.jsError msg)) e.finalResp
  | .ok _ =>
    match e.emiCalcExec with
    | .configErr msg => pFinalize ref tr6 true (pCatch r3 (.jsError msg)) e.finalResp
    | .spawned re =>
      let tr7 := tr6 ++ [Event.spawn .emiCalc]
      match re with
      | .error f => pFinalize ref tr7 true (pCatch r3 (.procFail f)) e.finalResp
      | .ok res =>
        -- `self.result = result; self.result.status = RUNNING`
        let r4 : PRes := ⟨.RUNNING, none, some res.stdout, some res.stderr⟩
        -- `if (result.stderr.match(/IndexError:/)) throw new Error("emicalc failed.")`
        if strContains res.stderr "IndexError:" then
          pFinalize ref tr7 true (pCatch r4 (.jsError "emicalc failed.")) e.finalResp
        else
          let r5 : PRes := ⟨r4.status, some "meanAndConcat", r4.stdout, r4.stderr⟩
          let tr8 := tr7 ++
            [Event.update .progress .postproc ref r5.stage r5.status r5.stdout r5.stderr]
          match e.updMeanAndConcat with
          | .error msg => pFinalize ref tr8 true (pCatch r5 (.jsError msg)) e.finalResp
          | .ok _ =>
            match e.meanExec with
            | .configErr msg => pFinalize ref tr8 true (pCatch r5 (.jsError msg)) e.finalResp
            | .spawned rm2 =>
              let tr9 := tr8 ++ [Event.spawn .meanAndConcat]
              match rm2 with
              | .error f => pFinalize ref tr9 true (pCatch r5 (.procFail f)) e.finalResp
              | .ok resM =>
                let r6 : PRes := ⟨.RUNNING, some "probesMeanYear", some resM.stdout, some resM.stderr⟩
                let tr10 := tr9 ++
                  [Event.update .progress .postproc ref r6.stage r6.status r6.stdout r6.stderr]
                match e.updProbes with
                | .error msg => pFinalize ref tr10 true (pCatch r6 (.jsError msg)) e.finalResp
                | .ok _ =>
                  match e.probesExec with
                  | .configErr msg => pFinalize ref tr10 true (pCatch r6 (.jsError msg)) e.finalResp
                  | .spawned rp =>
                    let tr11 := tr10 ++ [Event.spawn .probesMeanYear]
                    match rp with
                    | .error f => pFinalize ref tr11 true (pCatch r6 (.procFail f)) e.finalResp
                    | .ok resP =>
                      let r7 : PRes := ⟨.RUNNING, some "polluant", some resP.stdout, some resP.stderr⟩
                      let tr12 := tr11 ++
                        [Event.update .progress .postproc ref r7.stage r7.status r7.stdout r7.stderr]
                      match e.updPolluant with
                      | .error msg => pFinalize ref tr12 true (pCatch r7 (.jsError msg)) e.finalResp
                      | .ok _ =>
                        match e.polluantExec with
                        | .configErr msg => pFinalize ref tr12 true (pCatch r7 (.jsError msg)) e.finalResp
                        | .spawned rl =>
                          let tr13 := tr12 ++ [Event.spawn .polluant]
                          match rl with
                          | .error f => pFinalize ref tr13 true (pCatch r7 (.procFail f)) e.finalResp
                          | .ok resL =>
                            let r8 : PRes := ⟨.RUNNING, some "compress", some resL.stdout, some resL.stderr⟩
                            let tr14 := tr13 ++
                              [Event.update .progress .postproc ref r8.stage r8.status r8.stdout r8.stderr]
                            match e.updCompress with
                            | .error msg => pFinalize ref tr14 true (pCatch r8 (.jsError msg)) e.finalResp
                            | .ok _ =>
                              match e.compressExec with
                              | .configErr msg => pFinalize ref tr14 true (pCatch r8 (.jsError msg)) e.finalResp
                              | .spawned rz =>
                                let tr15 := tr14 ++ [Event.spawn .zipA]
                                match rz with
                                | .error f => pFinalize ref tr15 true (pCatch r8 (.procFail f)) e.finalResp
                                | .ok _ =>
                                  let r9 : PRes := ⟨r8.status, some "uploading", r8.stdout, r8.stderr⟩
                                  let tr16 := tr15 ++
                                    [Event.update .progress .postproc ref r9.stage r9.status r9.stdout r9.stderr]
                                  match e.updUploading with
                                  | .error msg => pFinalize ref tr16 true (pCatch r9 (.jsError msg)) e.finalResp
                                  | .ok _ =>
                                    match e.upload with
                                    | .error msg => pFinalize ref tr16 true (pCatch r9 (.jsError msg)) e.finalResp
                                    | .ok _ =>
                                      pFinalize ref tr16 true ⟨.DONE, r9.stage, r9.stdout, r9.stderr⟩ e.finalResp

/-- The post-processing chain once the claim returned RUNNING.  The
workspace was created by `setup()` *before* the claim, so `cleanup()`
always finds it and spawns `rm`; no later step recreates it.  The
pre-claim events are prepended by `postprocRun`. -/
def postprocSteps (ref : String) (e : PostEnv) (r0 : PRes) : RunOut :=
  let tr1 := [Event.register, Event.spawn .rm]
  match e.rmOut with
  | .error f => pFinalize ref tr1 true (pCatch r0 (.procFail f)) e.finalResp
  | .ok _ =>
    let r1 : PRes := ⟨r0.status, some "uncompress", r0.stdout, r0.stderr⟩
    let tr2 := tr1 ++
      [Event.update .progress .postproc ref r1.stage r1.status r1.stdout r1.stderr]
    match e.updUncompress with
    | .error msg => pFinalize ref tr2 true (pCatch r1 (.jsError msg)) e.finalResp
    | .ok _ =>
      let tr3 := tr2 ++ [Event.spawn .zipX]
      match e.unzOut with
      | .error f => pFinalize ref tr3 true (pCatch r1 (.procFail f)) e.finalResp
      | .ok _ =>
        match e.getFolder with
        | .error msg => pFinalize ref tr3 true (pCatch r1 (.jsError msg)) e.finalResp
        | .ok _ =>
          match e.download with
          | .error msg => pFinalize ref tr3 true (pCatch r1 (.jsError msg)) e.finalResp
          | .ok _ =>
            let r2 : PRes := ⟨r1.status, some "extraction", r1.stdout, r1.stderr⟩
            let tr4 := tr3 ++
              [Event.update .progress .postproc ref r2.stage r2.status r2.stdout r2.stderr]
            match e.updExtraction with
            | .error msg => pFinalize ref tr4 true (pCatch r2 (.jsError msg)) e.finalResp
            | .ok _ =>
              let tr5 := tr4 ++ [Event.extractZip]
              match e.extract with
              | .error msg => pFinalize ref tr5 true (pCatch r2 (.jsError msg)) e.finalResp
              | .ok _ => postprocTail ref e tr5 r2

/-- The pre-claim events of `Study.postproc`: the synchronous `setup()`
(which creates the workspace only when absent) followed by the claim
request. -/
def pPrefix (ref : String) (e : PostEnv) : List Event :=
  (if e.dirExists then [] else [Event.mkdirWs]) ++ [Event.claimReq .postproc ref]

/-- Models `Study.postproc` as a trace-producing function of its effect
environment.  `setup()` runs synchronously *before* the claim; the
workspace is never recreated after `cleanup()` removes it.  `self.pp`
is assigned only after the RUNNING check, so an unacquired claim leaves
the finaliser without a final update. -/
def postprocRun (ref : String) (e : PostEnv) : RunOut :=
  if e.inRegistry then ⟨[], .error "Study already under processing"⟩
  else
    let r0 : PRes := ⟨.RUNNING, none, none, none⟩
    match e.claim with
    | .error msg =>
      pFinalize ref (pPrefix ref e) false (pCatch r0 (.jsError msg)) e.finalResp
    | .ok st =>
      if st = .RUNNING then
        let out := postprocSteps ref e r0
        ⟨pPrefix ref e ++ out.trace, out.outcome⟩
      else
        pFinalize ref (pPrefix ref e) false
          (pCatch r0 (.jsError ("Invalid postproc status: " ++ st.str))) e.finalResp

set_option maxHeartbeats 1000000 in
theorem postprocTail_shape (ref : String) (e : PostEnv) (tr5 : List Event) (r2 : PRes)
    (htr : tr5.all pPre = true) :
    ∃ (tr : List Event) (r : PRes),
      postprocTail ref e tr5 r2 = pFinalize ref tr true r e.finalResp ∧
        tr.all pPre = true ∧ r.status.isTerminal = true := by
  unfold postprocTail
  repeat' split
  all_goals refine ⟨_, _, rfl, ?_, by rfl⟩
  all_goals simp only [List.all_append, List.all_cons, List.all_nil, htr, Bool.true_and,
    Bool.and_true, Bool.and_self]
  all_goals rfl

set_option maxHeartbeats 1000000 in
theorem postprocSteps_shape (ref : String) (e : PostEnv) (r0 : PRes) :
    ∃ (tr : List Event) (r : PRes),
      postprocSteps ref e r0 = pFinalize ref tr true r e.finalResp ∧
        tr.all pPre = true ∧ r.status.isTerminal = true := by
  unfold postprocSteps
  repeat' split
  all_goals try exact ⟨_, _, rfl, by rfl, by rfl⟩
  -- the success branch hands over to `postprocTail`
  all_goals exact postprocTail_shape ref e _ _ (by rfl)

theorem postprocRun_shape_acquired (ref : String) (e : PostEnv)
    (hReg : e.inRegistry = false) (hc : e.claim = .ok .RUNNING) :
    ∃ (tr : List Event) (r : PRes),
      (postprocRun ref e).trace = pPrefix ref e ++ (pFinalize ref tr true r e.finalResp).trace ∧
        (postprocRun ref e).outcome = .ok () ∧
        tr.all pPre = true ∧ r.status.isTerminal = true := by
  unfold postprocRun
  rw [hReg, hc]
  simp only [Bool.false_eq_true, if_false, if_pos]
  obtain ⟨tr, r, heq, h1, h2⟩ := postprocSteps_shape ref e ⟨.RUNNING, none, none, none⟩
  rw [heq]
  exact ⟨tr, r, rfl, by simp [pFinalize], h1, h2⟩

theorem postprocRun_shape_unacquired (ref : String) (e : PostEnv)
    (hReg : e.inRegistry = false) (hc : ∀ st, e.claim = .ok st → st ≠ .RUNNING) :
    postprocRun ref e = ⟨pPrefix ref e ++ [Event.unregister], .ok ()⟩ := by
  unfold postprocRun
  rw [hReg]
  simp only [Bool.false_eq_true, if_false]
  cases hcl : e.claim with
  | error msg => rfl
  | ok st =>
    simp only [if_neg (hc st hcl)]
    rfl

/-! ### Finaliser helper lemmas -/

theorem all_mono {P Q : Event → Bool} (h : ∀ ev, P ev = true → Q ev = true)
    (tr : List Event) (htr : tr.all P = true) : tr.all Q = true := by
  rw [List.all_eq_true] at *
  exact fun x hx => h x (htr x hx)

theorem sPre_preFinal (ev : Event) (h : sPre ev = true) : ev.preFinal = true := by
  simp only [sPre, Bool.and_eq_true] at h
  exact h.1

theorem pPre_preFinal (ev : Event) (h : pPre ev = true) : ev.preFinal = true := by
  simp only [pPre, Bool.and_eq_true] at h
  exact h.1

theorem mFinalize_trace (ref : String) (tr : List Event) (m : MTask)
    (resp : Except String TaskStatus) :
    (mFinalize ref tr m resp).trace =
      (tr ++ [Event.unregister]) ++
        [Event.update .finalizer .meshing ref m.stage m.status m.stdout m.stderr] ++
        logTail m.status resp := by
  simp [mFinalize, List.append_assoc]

theorem mFinalize_outcome (ref : String) (tr : List Event) (m : MTask)
    (resp : Except String TaskStatus) : (mFinalize ref tr m resp).outcome = .ok () := rfl

theorem finalStatuses_mFinalize (ref : String) (tr : List Event) (m : MTask)
    (resp : Except String TaskStatus) (h : tr.all Event.preFinal = true) :
    finalStatuses (mFinalize ref tr m resp).trace = [m.status] := by
  rw [mFinalize_trace, finalStatuses_append, finalStatuses_append,
    finalStatuses_append, finalStatuses_of_preFinal tr h, finalStatuses_logTail]
  rfl

theorem mFinalize_trace_all (P : Event → Bool) (ref : String) (tr : List Event) (m : MTask)
    (resp : Except String TaskStatus) (htr : tr.all P = true)
    (hunreg : P .unregister = true)
    (hupd : P (.update .finalizer .meshing ref m.stage m.status m.stdout m.stderr) = true)
    (hlog : P .logError = true) :
    (mFinalize ref tr m resp).trace.all P = true := by
  rw [mFinalize_trace]
  simp [List.all_append, htr, hunreg, hupd, logTail_all _ _ P hlog]

theorem sFinalize_none (simRef : String) (tr : List Event) (r : SimRes)
    (resp : Except String TaskStatus) :
    sFinalize simRef tr none r resp = ⟨tr ++ [Event.unregister], .ok ()⟩ := rfl

theorem sFinalize_trace_some (simRef : String) (tr : List Event) (ss : TaskStatus)
    (r : SimRes) (resp : Except String TaskStatus) :
    (sFinalize simRef tr (some ss) r resp).trace =
      (tr ++ [Event.unregister]) ++
        [Event.update .finalizer .simulation simRef (sPromote ss r).stage
          (sPromote ss r).status (some (sPromote ss r).stdout)
          (some (sPromote ss r).stderr)] ++
        logTail (sPromote ss r).status resp := by
  simp [sFinalize, List.append_assoc]

theorem sFinalize_outcome (simRef : String) (tr : List Event) (acq : Option TaskStatus)
    (r : SimRes) (resp : Except String TaskStatus) :
    (sFinalize simRef tr acq r resp).outcome = .ok () := by
  cases acq <;> rfl

theorem finalStatuses_sFinalize_some (simRef : String) (tr : List Event) (ss : TaskStatus)
    (r : SimRes) (resp : Except String TaskStatus) (h : tr.all Event.preFinal = true) :
    finalStatuses (sFinalize simRef tr (some ss) r resp).trace = [(sPromote ss r).status] := by
  rw [sFinalize_trace_some, finalStatuses_append, finalStatuses_append,
    finalStatuses_append, finalStatuses_of_preFinal tr h, finalStatuses_logTail]
  rfl

theorem sFinalize_trace_all_some (P : Event → Bool) (simRef : String) (tr : List Event)
    (ss : TaskStatus) (r : SimRes) (resp : Except String TaskStatus)
    (htr : tr.all P = true) (hunreg : P .unregister = true)
    (hupd : P (.update .finalizer .simulation simRef (sPromote ss r).stage
      (sPromote ss r).status (some (sPromote ss r).stdout)
      (some (sPromote ss r).stderr)) = true)
    (hlog : P .logError = true) :
    (sFinalize simRef tr (some ss) r resp).trace.all P = true := by
  rw [sFinalize_trace_some]
  simp [List.all_append, htr, hunreg, hupd, logTail_all _ _ P hlog]

theorem pFinalize_trace_true (ref : String) (tr : List Event) (r : PRes)
    (resp : Except String TaskStatus) :
    (pFinalize ref tr true r resp).trace =
      (tr ++ [Event.unregister]) ++
        [Event.update .finalizer .postproc ref r.stage r.status r.stdout r.stderr] ++
        logTail r.status resp := by
  simp [pFinalize, List.append_assoc]

theorem pFinalize_outcome (ref : String) (tr : List Event) (b : Bool) (r : PRes)
    (resp : Except String TaskStatus) : (pFinalize ref tr b r resp).outcome = .ok () := by
  cases b <;> rfl

theorem finalStatuses_pFinalize_true (ref : String) (tr : List Event) (r : PRes)
    (resp : Except String TaskStatus) (h : tr.all Event.preFinal = true) :
    finalStatuses (pFinalize ref tr true r resp).trace = [r.status] := by
  rw [pFinalize_trace_true, finalStatuses_append, finalStatuses_append,
    finalStatuses_append, finalStatuses_of_preFinal tr h, finalStatuses_logTail]
  rfl

theorem pFinalize_trace_all_true (P : Event → Bool) (ref : String) (tr : List Event)
    (r : PRes) (resp : Except String TaskStatus)
    (htr : tr.all P = true) (hunreg : P .unregister = true)
    (hupd : P (.update .finalizer .postproc ref r.stage r.status r.stdout r.stderr) = true)
    (hlog : P .logError = true) :
    (pFinalize ref tr true r resp).trace.all P = true := by
  rw [pFinalize_trace_true]
  simp [List.all_append, htr, hunreg, hupd, logTail_all _ _ P hlog]

theorem finalStatuses_pPrefix (ref : String) (e : PostEnv) :
    finalStatuses (pPrefix ref e) = [] := by
  unfold pPrefix
  cases e.dirExists <;> rfl

/-! ### Abort operations (`Study.abortMeshing` / `abortSimulation` /
`abortPostproc`)

The registry lookup `StudyCache.get(this.nodeRef)` is modelled by the
`reg` argument: `none` when the study has no active execution in this
process, otherwise the active record with its current `step` and (for
simulation) the nodeRef under which the simulation task was claimed.
`process.kill(-s.child.pid)` is the `killGroup` event. -/

structure Active where
  step : Stage
  simNodeRef : String
deriving DecidableEq, Repr

/-- Models `Study.abortMeshing`: with no active execution the task update is
sent with *only* the FAILED status — stage, stdout and stderr are left
`undefined`. -/
def abortMeshing (ref : String) (reg : Option Active) : RunOut :=
  match reg with
  | none => ⟨[.update .abortPath .meshing ref none .FAILED none none], .ok ()⟩
  | some s =>
    if s.step ≠ .meshing then ⟨[], .error "Study is not running the meshing step"⟩
    else ⟨[.killGroup], .ok ()⟩

/-- Models `Study.abortSimulation`: an inactive study — or an active one whose
claimed simulation nodeRef differs from the requested one — receives a
FAILED update with stderr `"user aborted"`; only a matching active
simulation run is killed. -/
def abortSimulation (simRef : String) (reg : Option Active) : RunOut :=
  match reg with
  | none =>
    ⟨[.update .abortPath .simulation simRef none .FAILED (some "") (some "user aborted")],
      .ok ()⟩
  | some s =>
    if s.step ≠ .simulation then ⟨[], .error "Study is not running the simulation step"⟩
    else if s.simNodeRef ≠ simRef then
      ⟨[.update .abortPath .simulation simRef none .FAILED (some "") (some "user aborted")],
        .ok ()⟩
    else ⟨[.killGroup], .ok ()⟩

/-- Models `Study.abortPostproc`: like `abortSimulation` but without a
separate task reference. -/
def abortPostproc (ref : String) (reg : Option Active) : RunOut :=
  match reg with
  | none =>
    ⟨[.update .abortPath .postproc ref none .FAILED (some "") (some "user aborted")], .ok ()⟩
  | some s =>
    if s.step ≠ .postproc then ⟨[], .error "Study is not running the postprocessing step"⟩
    else ⟨[.killGroup], .ok ()⟩

/-! ### Concrete effect environments used by witnesses and
counterexamples -/

/-- A meshing environment in which every step succeeds. -/
def mEnvOk : MeshEnv :=
  ⟨false,                      -- inRegistry
    .ok .RUNNING,              -- claim
    true,                      -- dirExists
    .ok ⟨"", ""⟩,              -- rmOut
    .ok (),                    -- updDownload
    .ok "folderNodeId",        -- getFolder
    .ok (),                    -- download
    .ok (),                    -- updExtraction
    .ok (),                    -- extract
    .ok (),                    -- updMeshing
    .spawned (.ok ⟨"", ""⟩),   -- preprocExec
    .ok (),                    -- updCompress
    .spawned (.ok ⟨"", ""⟩),   -- compressExec
    .ok .DONE⟩                 -- finalResp

def mEnvBusy : MeshEnv :=
  ⟨true, .ok .RUNNING, true, .ok ⟨"", ""⟩, .ok (), .ok "folderNodeId", .ok (), .ok (),
    .ok (), .ok (), .spawned (.ok ⟨"", ""⟩), .ok (), .spawned (.ok ⟨"", ""⟩), .ok .DONE⟩

/-- A meshing environment whose claim returns PENDING. -/
def mEnvPending : MeshEnv :=
  ⟨false, .ok .PENDING, true, .ok ⟨"", ""⟩, .ok (), .ok "folderNodeId", .ok (), .ok (),
    .ok (), .ok (), .spawned (.ok ⟨"", ""⟩), .ok (), .spawned (.ok ⟨"", ""⟩), .ok .FAILED⟩

/-- A simulation environment in which every step succeeds and the
captured output is clean. -/
def sEnvOk : SimEnv :=
  ⟨false,                      -- inRegistry
    .ok .RUNNING,              -- claim
    true,                      -- dirExists
    .ok ⟨"", ""⟩,              -- rmOut
    .ok (),                    -- updUncompress
    .ok ⟨"", ""⟩,              -- unzOut
    .ok (),                    -- updSimulation
    .spawned (.ok ⟨"", ""⟩),   -- simExec
    .ok (),                    -- updCompressing
    .spawned (.ok ⟨"", ""⟩),   -- compressExec
    .ok .DONE⟩                 -- finalResp

def sEnvBusy : SimEnv :=
  ⟨true, .ok .RUNNING, true, .ok ⟨"", ""⟩, .ok (), .ok ⟨"", ""⟩, .ok (),
    .spawned (.ok ⟨"", ""⟩), .ok (), .spawned (.ok ⟨"", ""⟩), .ok .DONE⟩

def sEnvPending : SimEnv :=
  ⟨false, .ok .PENDING, true, .ok ⟨"", ""⟩, .ok (), .ok ⟨"", ""⟩, .ok (),
    .spawned (.ok ⟨"", ""⟩), .ok (), .spawned (.ok ⟨"", ""⟩), .ok .FAILED⟩

/-- A simulation environment in which the `simulation` child exits 0
but its stderr reports a diverged computation. -/
def sEnvDiverged : SimEnv :=
  ⟨false, .ok .RUNNING, true, .ok ⟨"", ""⟩, .ok (), .ok ⟨"", ""⟩, .ok (),
    .spawned (.ok ⟨"", "le calcul a divergé"⟩), .ok (), .spawned (.ok ⟨"", ""⟩),
    .ok .FAILED⟩

/-- A post-processing environment in which every step succeeds. -/
def pEnvOk : PostEnv :=
  ⟨false,                      -- inRegistry
    true,                      -- dirExists
    .ok .RUNNING,              -- claim
    .ok ⟨"", ""⟩,              -- rmOut
    .ok (),                    -- updUncompress
    .ok ⟨"", ""⟩,              -- unzOut
    .ok "folderNodeId",        -- getFolder
    .ok (),                    -- download
    .ok (),                    -- updExtraction
    .ok (),                    -- extract
    .ok (),                    -- updEmiCalc
    .spawned (.ok ⟨"", ""⟩),   -- emiCalcExec
    .ok (),                    -- updMeanAndConcat
    .spawned (.ok ⟨"", ""⟩),   -- meanExec
    .ok (),                    -- updProbes
    .spawned (.ok ⟨"", ""⟩),   -- probesExec
    .ok (),                    -- updPolluant
    .spawned (.ok ⟨"", ""⟩),   -- polluantExec
    .ok (),                    -- updCompress
    .spawned (.ok ⟨"", ""⟩),   -- compressExec
    .ok (),                    -- updUploading
    .ok (),                    -- upload
    .ok .DONE⟩                 -- finalResp

def pEnvBusy : PostEnv :=
  ⟨true, true, .ok .RUNNING, .ok ⟨"", ""⟩, .ok (), .ok ⟨"", ""⟩, .ok "folderNodeId",
    .ok (), .ok (), .ok (), .ok (), .spawned (.ok ⟨"", ""⟩), .ok (),
    .spawned (.ok ⟨"", ""⟩), .ok (), .spawned (.ok ⟨"", ""⟩), .ok (),
    .spawned (.ok ⟨"", ""⟩), .ok (), .spawned (.ok ⟨"", ""⟩), .ok (), .ok (), .ok .DONE⟩

def pEnvPending : PostEnv :=
  ⟨false, true, .ok .PENDING, .ok ⟨"", ""⟩, .ok (), .ok ⟨"", ""⟩, .ok "folderNodeId",
    .ok (), .ok (), .ok (), .ok (), .spawned (.ok ⟨"", ""⟩), .ok (),
    .spawned (.ok ⟨"", ""⟩), .ok (), .spawned (.ok ⟨"", ""⟩), .ok (),
    .spawned (.ok ⟨"", ""⟩), .ok (), .spawned (.ok ⟨"", ""⟩), .ok (), .ok (), .ok .FAILED⟩

/-! ### Claim C3 — the already-processing guard -/

/-- C3: starting any stage (`startMeshing`, `startSimulation`,
`postproc`) on a study whose reference is already in the active-study
registry rejects with "Study already under processing", emits no events
at all, and in particular never invokes the repository claim
endpoint. -/
theorem already_processing_guard (ref simRef : String)
    (em : MeshEnv) (es : SimEnv) (ep : PostEnv)
    (hm : em.inRegistry = true) (hs : es.inRegistry = true) (hp : ep.inRegistry = true) :
    meshingRun ref em = ⟨[], .error "Study already under processing"⟩ ∧
    simulationRun simRef es = ⟨[], .error "Study already under processing"⟩ ∧
    postprocRun ref ep = ⟨[], .error "Study already under processing"⟩ ∧
    (∀ st r, Event.claimReq st r ∉ (meshingRun ref em).trace) ∧
    (∀ st r, Event.claimReq st r ∉ (simulationRun simRef es).trace) ∧
    (∀ st r, Event.claimReq st r ∉ (postprocRun ref ep).trace) := by
  refine ⟨?_, ?_, ?_, ?_, ?_, ?_⟩ <;>
    simp [meshingRun, simulationRun, postprocRun, hm, hs, hp]

theorem already_processing_guard_witness :
    mEnvBusy.inRegistry = true ∧
      meshingRun "workspace://SpacesStore/s1" mEnvBusy =
        ⟨[], .error "Study already under processing"⟩ :=
  ⟨rfl,
    (already_processing_guard "workspace://SpacesStore/s1" "workspace://SpacesStore/sim1"
      mEnvBusy sEnvBusy pEnvBusy rfl rfl rfl).1⟩

/-! ### Claim C4 — a non-RUNNING claim spawns nothing -/

/-- C4: when the claim call of any stage returns a status other than
RUNNING, the pipeline spawns no external program at all (no `rm`, no
`7z`, no stage program) and never registers the study in the
active-study registry. -/
theorem claim_not_running_no_spawn (ref simRef : String) (em : MeshEnv) (es : SimEnv)
    (ep : PostEnv) (stm sts stp : TaskStatus)
    (hm : em.inRegistry = false) (hmc : em.claim = .ok stm) (hmr : stm ≠ .RUNNING)
    (hs : es.inRegistry = false) (hsc : es.claim = .ok sts) (hsr : sts ≠ .RUNNING)
    (hp : ep.inRegistry = false) (hpc : ep.claim = .ok stp) (hpr : stp ≠ .RUNNING) :
    (meshingRun ref em).trace.all (fun ev => !ev.isSpawn && !ev.isReg) = true ∧
    (simulationRun simRef es).trace.all (fun ev => !ev.isSpawn && !ev.isReg) = true ∧
    (postprocRun ref ep).trace.all (fun ev => !ev.isSpawn && !ev.isReg) = true := by
  refine ⟨?_, ?_, ?_⟩
  · unfold meshingRun
    rw [hm, hmc]
    simp only [Bool.false_eq_true, if_false, if_neg hmr]
    exact mFinalize_trace_all _ ref _ _ em.finalResp (by rfl) rfl rfl rfl
  · unfold simulationRun
    rw [hs, hsc]
    simp only [Bool.false_eq_true, if_false, if_neg hsr]
    rw [sFinalize_none]
    rfl
  · rw [postprocRun_shape_unacquired ref ep hp
      (fun st h => by rw [hpc] at h; cases h; exact hpr)]
    show (pPrefix ref ep ++ [Event.unregister]).all _ = true
    unfold pPrefix
    cases ep.dirExists <;> rfl

theorem claim_not_running_no_spawn_witness :
    mEnvPending.claim = .ok .PENDING ∧
      (meshingRun "workspace://SpacesStore/s1" mEnvPending).trace.all
        (fun ev => !ev.isSpawn && !ev.isReg) = true :=
  ⟨rfl,
    (claim_not_running_no_spawn "workspace://SpacesStore/s1" "workspace://SpacesStore/sim1"
      mEnvPending sEnvPending pEnvPending .PENDING .PENDING .PENDING rfl rfl
      (by decide) rfl rfl (by decide) rfl rfl (by decide)).1⟩

/-! ### Claim C7 — abort on an inactive study -/

/-- C7 counterexample: `abortMeshing` on a study with no active
execution sends a single FAILED update, but its stderr is left
`undefined` — it does **not** carry `"user aborted"` as the claim
states for all three stages. -/
theorem abort_meshing_stderr_cex :
    (abortMeshing "workspace://SpacesStore/s1" none).trace =
      [.update .abortPath .meshing "workspace://SpacesStore/s1" none .FAILED none none] ∧
    ¬ ∃ (stg o : Option String) (st : TaskStatus),
        Event.update .abortPath .meshing "workspace://SpacesStore/s1" stg st o
            (some "user aborted") ∈
          (abortMeshing "workspace://SpacesStore/s1" none).trace := by
  refine ⟨rfl, ?_⟩
  rintro ⟨stg, o, st, hmem⟩
  simp [abortMeshing] at hmem

/-- C7 amended: on a study with no active execution, `abortSimulation`
and `abortPostproc` send exactly one FAILED task update with stderr
`"user aborted"` (and stdout `""`) and signal no process;
`abortMeshing` also sends exactly one FAILED update and signals no
process, but its stage, stdout and stderr are all left undefined — in
particular no `"user aborted"` stderr. -/
theorem abort_inactive_update (refM simRef refP : String) :
    abortSimulation simRef none =
      ⟨[.update .abortPath .simulation simRef none .FAILED (some "") (some "user aborted")],
        .ok ()⟩ ∧
    abortPostproc refP none =
      ⟨[.update .abortPath .postproc refP none .FAILED (some "") (some "user aborted")],
        .ok ()⟩ ∧
    abortMeshing refM none =
      ⟨[.update .abortPath .meshing refM none .FAILED none none], .ok ()⟩ ∧
    Event.killGroup ∉ (abortSimulation simRef none).trace ∧
    Event.killGroup ∉ (abortPostproc refP none).trace ∧
    Event.killGroup ∉ (abortMeshing refM none).trace := by
  refine ⟨rfl, rfl, rfl, ?_, ?_, ?_⟩ <;>
    simp [abortMeshing, abortSimulation, abortPostproc]

/-! ### Claim C10 — abortSimulation under a different simulation
nodeRef -/

/-- C10: when the study has an active *simulation* execution but it was
claimed under a different simulation nodeRef than the one passed to
`abortSimulation`, the worker sends a FAILED update with stderr
`"user aborted"` for the requested nodeRef and does not signal the
running child's process group. -/
theorem abort_simulation_other_ref (simRef : String) (s : Active)
    (hstep : s.step = .simulation) (hne : s.simNodeRef ≠ simRef) :
    abortSimulation simRef (some s) =
      ⟨[.update .abortPath .simulation simRef none .FAILED (some "") (some "user aborted")],
        .ok ()⟩ ∧
    Event.killGroup ∉ (abortSimulation simRef (some s)).trace := by
  have h : abortSimulation simRef (some s) =
      ⟨[.update .abortPath .simulation simRef none .FAILED (some "") (some "user aborted")],
        .ok ()⟩ := by
    simp [abortSimulation, hstep, hne]
  refine ⟨h, ?_⟩
  rw [h]
  simp

theorem abort_simulation_other_ref_witness :
    (Active.mk .simulation "workspace://SpacesStore/simA").step = .simulation ∧
      Event.killGroup ∉
        (abortSimulation "workspace://SpacesStore/simB"
          (some ⟨.simulation, "workspace://SpacesStore/simA"⟩)).trace :=
  ⟨rfl,
    (abort_simulation_other_ref "workspace://SpacesStore/simB"
      ⟨.simulation, "workspace://SpacesStore/simA"⟩ rfl (by decide)).2⟩

/-! ### Claim C5 — chunked upload PUT count -/

/-- C5 counterexample: the claim predicts `max 1 ⌈n / 8MiB⌉` PUT
requests; the code issues one more (the loop sends a final empty chunk
whose `counter` has reached `numChunks`).  A 16777216-byte file yields
3 PUTs, not 2. -/
theorem upload_chunk_count_cex :
    ¬ (∀ n : Nat, (uploadPuts n).length = max 1 ((n + CHUNK_SIZE - 1) / CHUNK_SIZE)) := by
  intro h
  have h1 := h 16777216
  rw [uploadPuts_length] at h1
  exact absurd h1 (by decide)

/-- C5 amended: an upload of an `n`-byte file issues exactly
`numChunks n + 1` PUT requests, where
`numChunks n = ⌊n / 8MiB⌋ + (1 if n mod 8MiB ≠ 0 else 0)` — i.e.
`⌈n / 8MiB⌉ + 1` for `n > 0` and `1` for `n = 0`; only the final PUT
carries `isLastChunk = true`, and that final PUT always has an empty
body.  In particular a 16777216-byte file yields 3 PUTs and a 4096-byte
file yields 2. -/
theorem upload_chunk_requests (n : Nat) :
    (uploadPuts n).length = numChunks n + 1 ∧
    (uploadPuts n).map PutReq.isLastChunk =
      List.replicate (numChunks n) false ++ [true] ∧
    (∀ q ∈ uploadPuts n, q.isLastChunk = true → q.size = 0) ∧
    (uploadPuts 16777216).length = 3 ∧ (uploadPuts 4096).length = 2 :=
  ⟨uploadPuts_length n, uploadPuts_isLast n, uploadPuts_last_empty n,
    by rw [uploadPuts_length]; decide, by rw [uploadPuts_length]; decide⟩

theorem upload_chunk_requests_witness :
    (uploadPuts 4096).length = numChunks 4096 + 1 :=
  (upload_chunk_requests 4096).1

/-! ### Claim C9 — flattening zip extraction -/

/-- Every destination written by an extraction comes from the last file
entry that flattens to it. -/
theorem lastFileEntryAt_spec (ws name : String) (entries : List ZipEntry) :
    (∀ e', lastFileEntryAt ws name entries = some e' →
      e' ∈ entries ∧ e'.type = EntryType.file ∧ entryDest ws e' = name) ∧
    (lastFileEntryAt ws name entries = none →
      ∀ e ∈ entries, e.type = EntryType.file → entryDest ws e ≠ name) := by
  induction entries with
  | nil => exact ⟨fun e' h => by simp [lastFileEntryAt] at h, fun _ e h => by simp at h⟩
  | cons e rest ih =>
    rw [lastFileEntryAt_cons]
    cases h : lastFileEntryAt ws name rest with
    | some e' =>
      refine ⟨fun e'' h'' => ?_, fun hnone => by cases hnone⟩
      cases h''
      obtain ⟨h1, h2, h3⟩ := ih.1 e' h
      exact ⟨List.mem_cons_of_mem e h1, h2, h3⟩
    | none =>
      by_cases hP : e.type = EntryType.file ∧ entryDest ws e = name
      · refine ⟨fun e'' h'' => ?_, fun hnone => ?_⟩
        · rw [if_pos hP] at h''
          cases h''
          exact ⟨List.mem_cons_self e rest, hP.1, hP.2⟩
        · rw [if_pos hP] at hnone
          cases hnone
      · refine ⟨fun e'' h'' => ?_, fun _ e₂ hmem hty => ?_⟩
        · rw [if_neg hP] at h''
          cases h''
        · rcases List.mem_cons.1 hmem with rfl | hmem₂
          · intro hdest; exact hP ⟨hty, hdest⟩
          · exact ih.2 h e₂ hmem₂ hty

/-- C9 counterexample: two file entries `a/f` and `b/f` flatten to the
same workspace name; the file written there carries the *second*
entry's content, so the first entry's content is not preserved as the
claim states for every file entry of every archive. -/
theorem extract_flatten_overwrite_cex :
    ¬ (∀ (ws : String) (entries : List ZipEntry),
        ∀ e ∈ entries, e.type = EntryType.file →
          extractFs ws entries (entryDest ws e) = some e.content) := by
  intro h
  have h1 := h "ws" [⟨"a/f", .file, "one"⟩, ⟨"b/f", .file, "two"⟩]
    ⟨"a/f", .file, "one"⟩ (by simp) rfl
  have h2 : extractFs "ws" [⟨"a/f", .file, "one"⟩, ⟨"b/f", .file, "two"⟩]
      (entryDest "ws" ⟨"a/f", .file, "one"⟩) = some "two" := by decide
  rw [h2] at h1
  exact absurd (Option.some.inj h1) (by decide)

/-- C9 amended: `extract` writes, for every name, exactly the content
of the **last** file entry of the archive that flattens to that name
(directory entries and untargeted names produce nothing); in
particular, for every file entry there is a file at
`<workspace>/basename(<entryPath>)`, and when no file entry flattens to
a name, no file exists there. -/
theorem extract_flatten_contract (ws name : String) (entries : List ZipEntry) :
    (extractFs ws entries name =
      match lastFileEntryAt ws name entries with
      | some e => some e.content
      | none => none) ∧
    ((∀ e ∈ entries, e.type = EntryType.file → entryDest ws e ≠ name) →
      extractFs ws entries name = none) ∧
    (∀ e ∈ entries, e.type = EntryType.file →
      ∃ e' ∈ entries, e'.type = EntryType.file ∧ entryDest ws e' = entryDest ws e ∧
        extractFs ws entries (entryDest ws e) = some e'.content) := by
  refine ⟨extractFs_eq_lastFileEntry ws name entries, fun hnone => ?_, fun e hmem hty => ?_⟩
  · rw [extractFs_eq_lastFileEntry]
    cases h : lastFileEntryAt ws name entries with
    | none => rfl
    | some e' =>
      obtain ⟨h1, h2, h3⟩ := (lastFileEntryAt_spec ws name entries).1 e' h
      exact absurd h3 (hnone e' h1 h2)
  · rw [extractFs_eq_lastFileEntry]
    cases h : lastFileEntryAt ws (entryDest ws e) entries with
    | none =>
      exact absurd rfl ((lastFileEntryAt_spec ws (entryDest ws e) entries).2 h e hmem hty)
    | some e' =>
      obtain ⟨h1, h2, h3⟩ := (lastFileEntryAt_spec ws (entryDest ws e) entries).1 e' h
      exact ⟨e', h1, h2, h3, rfl⟩

theorem extract_flatten_contract_witness :
    extractFs "ws" [⟨"dir/file.txt", .file, "payload"⟩, ⟨"dir", .directory, ""⟩]
        "ws/file.txt" = some "payload" ∧
      extractFs "ws" [⟨"dir/file.txt", .file, "payload"⟩, ⟨"dir", .directory, ""⟩]
        "ws/other" = none := by
  constructor
  · have h := (extract_flatten_contract "ws" "ws/file.txt"
      [⟨"dir/file.txt", .file, "payload"⟩, ⟨"dir", .directory, ""⟩]).1
    rw [h]
    decide
  · exact (extract_flatten_contract "ws" "ws/other"
      [⟨"dir/file.txt", .file, "payload"⟩, ⟨"dir", .directory, ""⟩]).2.1 (by decide)

/-! ### Claim C2 — solver divergence detected despite a clean exit -/

/-- C2: when the `simulation` child exits 0 but its captured stdout or
stderr matches `REGEXP_SIMULATION_ERROR`, the pipeline still runs the
compress step (spawning `7z a` for the `<studyId>-simulation.7z`
archive) and the finaliser's terminal task update carries FAILED. -/
theorem simulation_divergence (simRef : String) (e : SimEnv) (rr ru res rc : ExecResult)
    (hReg : e.inRegistry = false) (hclaim : e.claim = .ok .RUNNING)
    (hrm : e.rmOut = .ok rr)
    (h1 : e.updUncompress = .ok ()) (hunz : e.unzOut = .ok ru)
    (h2 : e.updSimulation = .ok ())
    (hsim : e.simExec = .spawned (.ok res))
    (hmatch : (simErrorMatch res.stderr || simErrorMatch res.stdout) = true)
    (h3 : e.updCompressing = .ok ())
    (hcomp : e.compressExec = .spawned (.ok rc)) :
    (simulationRun simRef e).trace.any (fun ev => ev.isSpawnOf .zipA) = true ∧
    finalStatuses (simulationRun simRef e).trace = [.FAILED] := by
  unfold simulationRun simulationSteps
  rw [hReg, hclaim]
  cases hd : e.dirExists
  all_goals
    simp only [hd, Bool.false_eq_true, if_false, if_true, hrm, h1, hunz, h2, hsim, h3,
      hcomp, hmatch, if_pos]
  all_goals constructor
  · rw [sFinalize_trace_some]
    simp [List.any_append, Event.isSpawnOf]
  · rw [finalStatuses_sFinalize_some _ _ _ _ _ (by rfl)]
    rfl
  · rw [sFinalize_trace_some]
    simp [List.any_append, Event.isSpawnOf]
  · rw [finalStatuses_sFinalize_some _ _ _ _ _ (by rfl)]
    rfl

theorem simulation_divergence_witness :
    sEnvDiverged.claim = .ok .RUNNING ∧
      finalStatuses (simulationRun "workspace://SpacesStore/sim1" sEnvDiverged).trace =
        [.FAILED] :=
  ⟨rfl,
    (simulation_divergence "workspace://SpacesStore/sim1" sEnvDiverged ⟨"", ""⟩ ⟨"", ""⟩
      ⟨"", "le calcul a divergé"⟩ ⟨"", ""⟩ rfl rfl rfl rfl rfl rfl rfl (by decide) rfl
      rfl).2⟩

/-! ### Claim C6 — workspace removal and recreation -/

/-- Workspace creation in a post-processing run happens only as the
very first event (the pre-claim `setup()`): when the directory already
exists no `mkdir` is ever issued, otherwise the single `mkdir` heads
the trace; nothing ever recreates the directory removed by
`cleanup()`. -/
theorem postprocRun_mkdir (ref : String) (e : PostEnv) (hReg : e.inRegistry = false) :
    if e.dirExists then
      (postprocRun ref e).trace.all (fun ev => !ev.isMkdir) = true
    else
      (postprocRun ref e).trace.head? = some Event.mkdirWs ∧
        (postprocRun ref e).trace.tail.all (fun ev => !ev.isMkdir) = true := by
  have hnm : ∀ ev, pPre ev = true → (!ev.isMkdir) = true := fun ev h => by
    simp only [pPre, Bool.and_eq_true] at h
    exact h.2
  by_cases hc : e.claim = .ok .RUNNING
  · obtain ⟨tr, r, htr, hout, hall, hterm⟩ := postprocRun_shape_acquired ref e hReg hc
    have hfin : (pFinalize ref tr true r e.finalResp).trace.all
        (fun ev => !ev.isMkdir) = true :=
      pFinalize_trace_all_true _ ref tr r _ (all_mono hnm tr hall) rfl rfl rfl
    cases hd : e.dirExists
    · simp only [hd, Bool.false_eq_true, if_false]
      rw [htr]
      unfold pPrefix
      simp only [hd, Bool.false_eq_true, if_false, List.cons_append, List.nil_append]
      refine ⟨rfl, ?_⟩
      simp only [List.tail_cons, List.all_cons, hfin, Bool.and_true]
      rfl
    · simp only [hd, if_true]
      rw [htr]
      unfold pPrefix
      simp only [hd, if_true, List.nil_append]
      rw [List.all_append, hfin, Bool.and_true]
      rfl
  · have heq := postprocRun_shape_unacquired ref e hReg
      (fun st h => by intro hst; exact hc (by rw [h, hst]))
    cases hd : e.dirExists
    · simp only [hd, Bool.false_eq_true, if_false]
      rw [heq]
      unfold pPrefix
      simp only [hd, Bool.false_eq_true, if_false, List.cons_append, List.nil_append]
      exact ⟨rfl, by rfl⟩
    · simp only [hd, if_true]
      rw [heq]
      unfold pPrefix
      simp only [hd, if_true]
      rfl

/-- C6 counterexample: a fully successful simulation run reaches its
population step (`7z x`, the `uncompress` of the meshing archive)
without a single workspace `mkdir` in its whole trace — the directory
is removed by `cleanup()` but never recreated, contradicting the claim
that at the start of every stage the workspace is recursively removed
and then recreated. -/
theorem workspace_recreation_cex :
    (simulationRun "workspace://SpacesStore/sim1" sEnvOk).trace.any
        (fun ev => ev.isSpawnOf .zipX) = true ∧
    (simulationRun "workspace://SpacesStore/sim1" sEnvOk).trace.all
        (fun ev => !ev.isMkdir) = true := by
  exact ⟨by rfl, by rfl⟩

theorem sPre_noMkdir (ev : Event) (h : sPre ev = true) : (!ev.isMkdir) = true := by
  simp only [sPre, Bool.and_eq_true] at h
  exact h.2

/-- C6 amended: only the meshing stage removes and then recreates the
workspace before populating it (`rm` when the directory exists, then
`mkdir`, before the `extraction` step); a simulation run never issues a
`mkdir` at all (the workspace stays removed when `7z x` starts); a
post-processing run creates the directory only synchronously *before*
the claim (when absent) and never recreates it after `cleanup()`
removes it. -/
theorem workspace_lifecycle (ref simRef refP : String) (em : MeshEnv) (es : SimEnv)
    (ep : PostEnv) (rr : ExecResult) (nid : String)
    (hmReg : em.inRegistry = false) (hmc : em.claim = .ok .RUNNING)
    (hrm : em.rmOut = .ok rr) (h1 : em.updDownload = .ok ())
    (hgf : em.getFolder = .ok nid) (hdl : em.download = .ok ())
    (h2 : em.updExtraction = .ok ())
    (hsReg : es.inRegistry = false) (hpReg : ep.inRegistry = false) :
    (if em.dirExists then
        (meshingRun ref em).trace.take 4 =
            [Event.claimReq .meshing ref, Event.register, Event.spawn .rm,
              Event.mkdirWs] ∧
          Event.extractZip ∈ (meshingRun ref em).trace.drop 4
      else
        (meshingRun ref em).trace.take 3 =
            [Event.claimReq .meshing ref, Event.register, Event.mkdirWs] ∧
          Event.extractZip ∈ (meshingRun ref em).trace.drop 3) ∧
    (simulationRun simRef es).trace.all (fun ev => !ev.isMkdir) = true ∧
    (if ep.dirExists then
        (postprocRun refP ep).trace.all (fun ev => !ev.isMkdir) = true
      else
        (postprocRun refP ep).trace.head? = some Event.mkdirWs ∧
          (postprocRun refP ep).trace.tail.all (fun ev => !ev.isMkdir) = true) := by
  refine ⟨?_, ?_, postprocRun_mkdir refP ep hpReg⟩
  · unfold meshingRun meshingSteps
    rw [hmReg, hmc]
    cases hd : em.dirExists
    all_goals
      simp only [hd, Bool.false_eq_true, if_false, if_true, hrm, h1, hgf, hdl, h2]
    all_goals repeat' split
    all_goals exact ⟨rfl, by simp [mFinalize]⟩
  · by_cases hc : es.claim = .ok .RUNNING
    · obtain ⟨tr, ss, r, heq, hall, _⟩ := simulationRun_shape_acquired simRef es hsReg hc
      rw [heq]
      exact sFinalize_trace_all_some _ simRef tr ss r _ (all_mono sPre_noMkdir tr hall)
        rfl rfl rfl
    · obtain ⟨tr, r, heq, hall⟩ := simulationRun_shape_unacquired simRef es hsReg
        (fun st h => by intro hst; exact hc (by rw [h, hst]))
      rw [heq, sFinalize_none]
      simp only [List.all_append, all_mono sPre_noMkdir tr hall, Bool.true_and]
      rfl

theorem workspace_lifecycle_witness :
    mEnvOk.dirExists = true ∧
      (meshingRun "workspace://SpacesStore/s1" mEnvOk).trace.take 4 =
        [Event.claimReq .meshing "workspace://SpacesStore/s1", Event.register,
          Event.spawn .rm, Event.mkdirWs] := by
  have h := (workspace_lifecycle "workspace://SpacesStore/s1" "workspace://SpacesStore/sim1"
    "workspace://SpacesStore/s1" mEnvOk sEnvOk pEnvOk ⟨"", ""⟩ "folderNodeId"
    rfl rfl rfl rfl rfl rfl rfl rfl rfl).1
  rw [show mEnvOk.dirExists = true from rfl, if_pos rfl] at h
  exact ⟨rfl, h.1⟩

/-! ### Claim C8 — `type=f` validation and the missing
`frequencesVent` input -/

theorem interpolatePath_studyDir (sc sd : String) :
    interpolatePath sc sd "{studyDir}" = sd := by
  cases sd with
  | mk l =>
    show String.mk (l ++ []) = String.mk l
    rw [List.append_nil]

theorem interpolatePath_probes (sc sd : String) :
    interpolatePath sc sd "{studyDir}/probes_treated" = sd ++ "/probes_treated" := rfl

theorem interpolatePath_freq (sc sd : String) :
    interpolatePath sc sd "{studyDir}/frequencesVent" = sd ++ "/frequencesVent" := rfl

theorem strAppend_assoc (a b c : String) : (a ++ b) ++ c = a ++ (b ++ c) := by
  cases a with
  | mk la =>
    cases b with
    | mk lb =>
      cases c with
      | mk lc =>
        show String.mk ((la ++ lb) ++ lc) = String.mk (la ++ (lb ++ lc))
        rw [List.append_assoc]

theorem except_bind_ok {ε α β : Type} (a : α) (f : α → Except ε β) :
    (Except.ok a : Except ε α) >>= f = f a := rfl

theorem except_bind_err {ε α β : Type} (e : ε) (f : α → Except ε β) :
    (Except.error e : Except ε α) >>= f = .error e := rfl

theorem checkArg_f (sc sd : String) (st : VState) (oopt : Option String) (v0 : String) :
    (st.fs (interpolatePath sc sd v0) = none →
      checkArg sc sd st ⟨oopt, some v0, some ArgTy.f, false⟩ =
        .error (interpolatePath sc sd v0 ++ " not found")) ∧
    (st.fs (interpolatePath sc sd v0) = some FsNode.dir →
      checkArg sc sd st ⟨oopt, some v0, some ArgTy.f, false⟩ =
        .error (interpolatePath sc sd v0 ++ " is not a file")) := by
  cases oopt <;> constructor <;> intro h <;> simp [checkArg, h]

/-- Behaviour of the `type=f` pre-spawn check of `Study.execute` once
the descriptors before it validated: a value that does not exist fails
with `"<value> not found"`, while a value that exists but is a
directory fails with `"<value> is not a file"`; either way `execute`
throws before `spawn`. -/
theorem validateArgs_missing_file (sc sd : String) (fs : FsModel)
    (pre post : List ArgDesc) (oopt : Option String) (v0 : String) (st : VState)
    (hpre : validateArgs sc sd fs pre = .ok st) :
    (st.fs (interpolatePath sc sd v0) = none →
      validateArgs sc sd fs (pre ++ ⟨oopt, some v0, some ArgTy.f, false⟩ :: post) =
        .error (interpolatePath sc sd v0 ++ " not found")) ∧
    (st.fs (interpolatePath sc sd v0) = some FsNode.dir →
      validateArgs sc sd fs (pre ++ ⟨oopt, some v0, some ArgTy.f, false⟩ :: post) =
        .error (interpolatePath sc sd v0 ++ " is not a file")) := by
  unfold validateArgs at hpre ⊢
  have hfull : List.foldlM (checkArg sc sd) (⟨[], fs⟩ : VState)
      (pre ++ ⟨oopt, some v0, some ArgTy.f, false⟩ :: post) =
      List.foldlM (checkArg sc sd) st (⟨oopt, some v0, some ArgTy.f, false⟩ :: post) := by
    rw [foldlM_except_append (checkArg sc sd) pre
      (⟨oopt, some v0, some ArgTy.f, false⟩ :: post) ⟨[], fs⟩, hpre]
  constructor <;> intro h <;> rw [hfull, List.foldlM_cons]
  · rw [(checkArg_f sc sd st oopt v0).1 h]
    rfl
  · rw [(checkArg_f sc sd st oopt v0).2 h]
    rfl

/-- The argument descriptors of the `probesMeanYear` step
(`Study.postproc`). -/
def probesMeanYearArgs : List ArgDesc :=
  [⟨some "-p_working", some "{studyDir}", some ArgTy.d, false⟩,
   ⟨some "-p_probes_treated", some "{studyDir}/probes_treated", some ArgTy.d, false⟩,
   ⟨some "-p_freq", some "{studyDir}/frequencesVent", some ArgTy.f, false⟩,
   ⟨some "-p_sigmo", some "{studyDir}/parametresSigmoide", some ArgTy.f, false⟩,
   ⟨some "-p_config", some "{scriptDir}/config", some ArgTy.f, false⟩]

/-- On a workspace holding `probes_treated` but missing
`frequencesVent`, the argument pass of the `probesMeanYear` execute
call throws the configuration error
`"<studyDir>/frequencesVent not found"` — before any spawn. -/
theorem validateArgs_probes (sc sd : String) (fs : FsModel)
    (h1 : fs sd = some FsNode.dir)
    (h2 : fs (sd ++ "/probes_treated") = some FsNode.dir)
    (h3 : fs (sd ++ "/frequencesVent") = none) :
    validateArgs sc sd fs probesMeanYearArgs =
      .error (sd ++ "/frequencesVent not found") := by
  unfold validateArgs probesMeanYearArgs
  simp only [List.foldlM_cons, List.foldlM_nil, checkArg, interpolatePath_studyDir,
    interpolatePath_probes, interpolatePath_freq, h1, h2, h3, except_bind_ok,
    except_bind_err]
  rw [show (sd ++ "/frequencesVent") ++ " not found" = sd ++ "/frequencesVent not found"
    from strAppend_assoc sd "/frequencesVent" " not found"]

theorem finalStderrs_pFinalize_true (ref : String) (tr : List Event) (r : PRes)
    (resp : Except String TaskStatus) (h : tr.all Event.preFinal = true) :
    finalStderrs (pFinalize ref tr true r resp).trace = [r.stderr] := by
  rw [pFinalize_trace_true, finalStderrs_append, finalStderrs_append,
    finalStderrs_append, finalStderrs_of_preFinal tr h, finalStderrs_logTail]
  rfl

theorem finalStderrs_pPrefix (ref : String) (e : PostEnv) :
    finalStderrs (pPrefix ref e) = [] := by
  unfold pPrefix
  cases e.dirExists <;> rfl

/-- A post-processing run whose `probesMeanYear` argument pass throws a
configuration error: no `probesMeanYear` process is ever spawned, the
run terminates FAILED, and the final update's stderr is exactly the
configuration error's message. -/
theorem postproc_probes_config_error (refP : String) (ep : PostEnv) (msg : String)
    (rr ru re resM : ExecResult) (nid : String)
    (hReg : ep.inRegistry = false) (hclaim : ep.claim = .ok .RUNNING)
    (hrm : ep.rmOut = .ok rr) (h1 : ep.updUncompress = .ok ()) (hunz : ep.unzOut = .ok ru)
    (hgf : ep.getFolder = .ok nid) (hdl : ep.download = .ok ())
    (h2 : ep.updExtraction = .ok ()) (hex : ep.extract = .ok ())
    (h3 : ep.updEmiCalc = .ok ()) (hemi : ep.emiCalcExec = .spawned (.ok re))
    (hIdx : strContains re.stderr "IndexError:" = false)
    (h4 : ep.updMeanAndConcat = .ok ()) (hmean : ep.meanExec = .spawned (.ok resM))
    (h5 : ep.updProbes = .ok ())
    (hprobes : ep.probesExec = .configErr msg) :
    (postprocRun refP ep).trace.all (fun ev => !(ev.isSpawnOf .probesMeanYear)) = true ∧
    finalStatuses (postprocRun refP ep).trace = [.FAILED] ∧
    finalStderrs (postprocRun refP ep).trace = [some msg] := by
  unfold postprocRun postprocSteps postprocTail
  rw [hReg, hclaim]
  simp only [Bool.false_eq_true, if_false, if_pos, hrm, h1, hunz, hgf, hdl, h2, hex, h3,
    hemi, hIdx, h4, hmean, h5, hprobes]
  refine ⟨?_, ?_, ?_⟩
  · rw [List.all_append]
    have hp : (pPrefix refP ep).all (fun ev => !(ev.isSpawnOf .probesMeanYear)) = true := by
      unfold pPrefix
      cases ep.dirExists <;> rfl
    rw [hp]
    rw [pFinalize_trace_all_true _ refP _ _ ep.finalResp (by rfl) rfl rfl rfl]
    rfl
  · rw [finalStatuses_append, finalStatuses_pPrefix,
      finalStatuses_pFinalize_true refP _ _ ep.finalResp (by rfl)]
    rfl
  · rw [finalStderrs_append, finalStderrs_pPrefix,
      finalStderrs_pFinalize_true refP _ _ ep.finalResp (by rfl)]
    rfl

/-- C8 counterexample: the claim says every `type=f` descriptor whose
interpolated value is not an existing regular file fails with
`"<value> not found"`; but a value that exists as a *directory* fails
with `"<value> is not a file"` instead. -/
theorem type_f_message_cex :
    ¬ (∀ (fs : FsModel) (v : String),
        fs (interpolatePath "" "" v) ≠ some FsNode.file →
          validateArgs "" "" fs [⟨none, some v, some ArgTy.f, false⟩] =
            .error (interpolatePath "" "" v ++ " not found")) := by
  intro h
  have h1 := h (fun _ => some FsNode.dir) "x" (by simp)
  have h2 : validateArgs "" "" (fun _ => some FsNode.dir)
      [⟨none, some "x", some ArgTy.f, false⟩] = .error "x is not a file" := rfl
  rw [h2] at h1
  have h3 : interpolatePath "" "" "x" ++ " not found" = "x not found" := rfl
  rw [h3] at h1
  exact absurd (Except.error.inj h1) (by decide)

/-- C8 amended: a `type=f` descriptor whose interpolated value does not
exist fails validation with `"<value> not found"`, and one whose value
exists but is not a regular file fails with `"<value> is not a file"`;
in both cases `execute` throws the configuration error before any child
is spawned.  In particular, with `<studyDir>/frequencesVent` missing
the `probesMeanYear` argument pass throws
`"<studyDir>/frequencesVent not found"`, the post-processing pipeline
never spawns `probesMeanYear`, terminates FAILED, and the final
update's stderr — exactly that message — contains
`"frequencesVent not found"`. -/
theorem missing_file_validation (sc sd : String) (fs fsP : FsModel)
    (pre post : List ArgDesc) (oopt : Option String) (v0 : String) (st : VState)
    (refP : String) (ep : PostEnv) (rr ru re resM : ExecResult) (nid : String)
    (hpre : validateArgs sc sd fs pre = .ok st)
    (hfs1 : fsP sd = some FsNode.dir)
    (hfs2 : fsP (sd ++ "/probes_treated") = some FsNode.dir)
    (hfs3 : fsP (sd ++ "/frequencesVent") = none)
    (hReg : ep.inRegistry = false) (hclaim : ep.claim = .ok .RUNNING)
    (hrm : ep.rmOut = .ok rr) (h1 : ep.updUncompress = .ok ()) (hunz : ep.unzOut = .ok ru)
    (hgf : ep.getFolder = .ok nid) (hdl : ep.download = .ok ())
    (h2 : ep.updExtraction = .ok ()) (hex : ep.extract = .ok ())
    (h3 : ep.updEmiCalc = .ok ()) (hemi : ep.emiCalcExec = .spawned (.ok re))
    (hIdx : strContains re.stderr "IndexError:" = false)
    (h4 : ep.updMeanAndConcat = .ok ()) (hmean : ep.meanExec = .spawned (.ok resM))
    (h5 : ep.updProbes = .ok ())
    (hprobes : ep.probesExec = .configErr (sd ++ "/frequencesVent not found")) :
    ((st.fs (interpolatePath sc sd v0) = none →
        validateArgs sc sd fs (pre ++ ⟨oopt, some v0, some ArgTy.f, false⟩ :: post) =
          .error (interpolatePath sc sd v0 ++ " not found")) ∧
      (st.fs (interpolatePath sc sd v0) = some FsNode.dir →
        validateArgs sc sd fs (pre ++ ⟨oopt, some v0, some ArgTy.f, false⟩ :: post) =
          .error (interpolatePath sc sd v0 ++ " is not a file"))) ∧
    validateArgs sc sd fsP probesMeanYearArgs =
      .error (sd ++ "/frequencesVent not found") ∧
    (postprocRun refP ep).trace.all (fun ev => !(ev.isSpawnOf .probesMeanYear)) = true ∧
    finalStatuses (postprocRun refP ep).trace = [.FAILED] ∧
    finalStderrs (postprocRun refP ep).trace = [some (sd ++ "/frequencesVent not found")] ∧
    strContains (sd ++ "/frequencesVent not found") "frequencesVent not found" = true :=
  have hpp := postproc_probes_config_error refP ep (sd ++ "/frequencesVent not found")
    rr ru re resM nid hReg hclaim hrm h1 hunz hgf hdl h2 hex h3 hemi hIdx h4 hmean h5
    hprobes
  ⟨validateArgs_missing_file sc sd fs pre post oopt v0 st hpre,
    validateArgs_probes sc sd fsP hfs1 hfs2 hfs3,
    hpp.1, hpp.2.1, hpp.2.2,
    strContains_append_right sd "/frequencesVent not found" "frequencesVent not found"
      (by decide)⟩

/-- The abstract workspace used by the C8 witness: the study directory
and its `probes_treated` subdirectory exist, `frequencesVent` does
not. -/
def fsFreqMissing : FsModel := fun s =>
  if s = "/studies/e72" then some FsNode.dir
  else if s = "/studies/e72/probes_treated" then some FsNode.dir
  else none

/-- A post-processing environment whose `probesMeanYear` argument pass
throws the missing-`frequencesVent` configuration error. -/
def pEnvFreqMissing : PostEnv :=
  ⟨false, true, .ok .RUNNING, .ok ⟨"", ""⟩, .ok (), .ok ⟨"", ""⟩, .ok "folderNodeId",
    .ok (), .ok (), .ok (), .ok (), .spawned (.ok ⟨"", ""⟩), .ok (),
    .spawned (.ok ⟨"", ""⟩), .ok (),
    .configErr "/studies/e72/frequencesVent not found", .ok (),
    .spawned (.ok ⟨"", ""⟩), .ok (), .spawned (.ok ⟨"", ""⟩), .ok (), .ok (), .ok .FAILED⟩

theorem missing_file_validation_witness :
    fsFreqMissing ("/studies/e72" ++ "/frequencesVent") = none ∧
      finalStatuses (postprocRun "workspace://SpacesStore/s1" pEnvFreqMissing).trace =
        [.FAILED] :=
  ⟨by decide,
    (missing_file_validation "/opt/airetd" "/studies/e72" fsFreqMissing fsFreqMissing []
      [] none "{studyDir}/frequencesVent" ⟨[], fsFreqMissing⟩
      "workspace://SpacesStore/s1" pEnvFreqMissing ⟨"", ""⟩ ⟨"", ""⟩ ⟨"", ""⟩ ⟨"", ""⟩
      "folderNodeId" rfl (by decide) (by decide) (by decide) rfl rfl rfl rfl rfl rfl rfl
      rfl rfl rfl rfl (by decide) rfl rfl rfl rfl).2.2.2.1⟩

/-! ### Claim C1 — the finaliser's task update -/

/-- C1 counterexample: the claimed equivalence (final update sent iff
the claim call returned RUNNING) fails for the meshing pipeline — `self.meshing` is assigned
*before* the RUNNING check and the catch handler replaces it with a
FAILED record, so the meshing finaliser sends a final update even when
the claim call returned PENDING. -/
theorem meshing_final_update_without_claim_cex :
    ¬ (∀ (ref : String) (e : MeshEnv), e.inRegistry = false →
        finalStatuses (meshingRun ref e).trace ≠ [] → e.claim = .ok .RUNNING) := by
  intro h
  have := h "workspace://SpacesStore/s1" mEnvPending rfl (by decide)
  exact absurd this (by decide)

/-- C1 amended: every pipeline run that passes the registry guard
resolves (a disagreeing or failed final-update response is only
logged, never raised), and issues at most one finaliser task update,
always carrying a terminal status (DONE or FAILED) and positioned
after every other pipeline event (only log entries may follow it).
For simulation and post-processing the final update is sent iff the
claim was acquired (returned RUNNING); the meshing pipeline however
sends its final update on **every** run, acquired or not. -/
theorem finalizer_update_contract (ref simRef refP : String) (em : MeshEnv)
    (es : SimEnv) (ep : PostEnv) (hm : em.inRegistry = false)
    (hs : es.inRegistry = false) (hp : ep.inRegistry = false) :
    ((finalStatuses (meshingRun ref em).trace).length = 1 ∧
      (∀ st ∈ finalStatuses (meshingRun ref em).trace, st.isTerminal = true) ∧
      (meshingRun ref em).outcome = .ok () ∧
      (∃ pre stg st o err post,
        (meshingRun ref em).trace =
          pre ++ Event.update .finalizer .meshing ref stg st o err :: post ∧
          pre.all Event.preFinal = true ∧ post.all Event.isLog = true)) ∧
    ((es.claim = .ok .RUNNING →
        (finalStatuses (simulationRun simRef es).trace).length = 1 ∧
        (∀ st ∈ finalStatuses (simulationRun simRef es).trace, st.isTerminal = true) ∧
        ∃ pre stg st o err post,
          (simulationRun simRef es).trace =
            pre ++ Event.update .finalizer .simulation simRef stg st o err :: post ∧
            pre.all Event.preFinal = true ∧ post.all Event.isLog = true) ∧
      (es.claim ≠ .ok .RUNNING → finalStatuses (simulationRun simRef es).trace = []) ∧
      (simulationRun simRef es).outcome = .ok ()) ∧
    ((ep.claim = .ok .RUNNING →
        (finalStatuses (postprocRun refP ep).trace).length = 1 ∧
        (∀ st ∈ finalStatuses (postprocRun refP ep).trace, st.isTerminal = true) ∧
        ∃ pre stg st o err post,
          (postprocRun refP ep).trace =
            pre ++ Event.update .finalizer .postproc refP stg st o err :: post ∧
            pre.all Event.preFinal = true ∧ post.all Event.isLog = true) ∧
      (ep.claim ≠ .ok .RUNNING → finalStatuses (postprocRun refP ep).trace = []) ∧
      (postprocRun refP ep).outcome = .ok ()) := by
  refine ⟨?_, ⟨?_, ?_, ?_⟩, ⟨?_, ?_, ?_⟩⟩
  · -- meshing
    obtain ⟨tr, m, heq, hall, hterm⟩ := meshingRun_shape ref em hm
    have hfs := finalStatuses_mFinalize ref tr m em.finalResp hall
    refine ⟨?_, ?_, ?_, ?_⟩
    · rw [heq, hfs]; rfl
    · rw [heq, hfs]
      intro st hst
      rw [List.mem_singleton] at hst
      subst hst
      exact hterm
    · rw [heq]; rfl
    · rw [heq, mFinalize_trace]
      refine ⟨tr ++ [Event.unregister], m.stage, m.status, m.stdout, m.stderr,
        logTail m.status em.finalResp, ?_, ?_, ?_⟩
      · rw [List.append_assoc]
        rfl
      · rw [List.all_append, hall]
        rfl
      · exact logTail_all _ _ _ rfl
  · -- simulation, acquired
    intro hc
    obtain ⟨tr, ss, r, heq, hall, hterm⟩ := simulationRun_shape_acquired simRef es hs hc
    have hallF : tr.all Event.preFinal = true := all_mono sPre_preFinal tr hall
    have hfs := finalStatuses_sFinalize_some simRef tr ss r es.finalResp hallF
    refine ⟨?_, ?_, ?_⟩
    · rw [heq, hfs]; rfl
    · rw [heq, hfs]
      intro st hst
      rw [List.mem_singleton] at hst
      subst hst
      exact hterm
    · rw [heq, sFinalize_trace_some]
      refine ⟨tr ++ [Event.unregister], (sPromote ss r).stage, (sPromote ss r).status,
        some (sPromote ss r).stdout, some (sPromote ss r).stderr,
        logTail (sPromote ss r).status es.finalResp, ?_, ?_, ?_⟩
      · rw [List.append_assoc]
        rfl
      · rw [List.all_append, hallF]
        rfl
      · exact logTail_all _ _ _ rfl
  · -- simulation, not acquired
    intro hc
    obtain ⟨tr, r, heq, hall⟩ := simulationRun_shape_unacquired simRef es hs
      (fun st h => fun hst => hc (by rw [h, hst]))
    rw [heq, sFinalize_none]
    rw [finalStatuses_append,
      finalStatuses_of_preFinal tr (all_mono sPre_preFinal tr hall)]
    rfl
  · -- simulation outcome
    by_cases hc : es.claim = .ok .RUNNING
    · obtain ⟨tr, ss, r, heq, hall, hterm⟩ := simulationRun_shape_acquired simRef es hs hc
      rw [heq]
      exact sFinalize_outcome simRef tr (some ss) r es.finalResp
    · obtain ⟨tr, r, heq, hall⟩ := simulationRun_shape_unacquired simRef es hs
        (fun st h => fun hst => hc (by rw [h, hst]))
      rw [heq]
      exact sFinalize_outcome simRef tr none r es.finalResp
  · -- postproc, acquired
    intro hc
    obtain ⟨tr, r, htr, hout, hall, hterm⟩ := postprocRun_shape_acquired refP ep hp hc
    have hallF : tr.all Event.preFinal = true := all_mono pPre_preFinal tr hall
    have hfs := finalStatuses_pFinalize_true refP tr r ep.finalResp hallF
    have hpPre : (pPrefix refP ep).all Event.preFinal = true := by
      unfold pPrefix
      cases ep.dirExists <;> rfl
    refine ⟨?_, ?_, ?_⟩
    · rw [htr, finalStatuses_append, finalStatuses_pPrefix, hfs]; rfl
    · rw [htr, finalStatuses_append, finalStatuses_pPrefix, hfs]
      intro st hst
      rw [List.nil_append, List.mem_singleton] at hst
      subst hst
      exact hterm
    · rw [htr, pFinalize_trace_true]
      refine ⟨pPrefix refP ep ++ (tr ++ [Event.unregister]), r.stage, r.status,
        r.stdout, r.stderr, logTail r.status ep.finalResp, ?_, ?_, ?_⟩
      · simp [List.append_assoc]
      · rw [List.all_append, hpPre, List.all_append, hallF]
        rfl
      · exact logTail_all _ _ _ rfl
  · -- postproc, not acquired
    intro hc
    rw [postprocRun_shape_unacquired refP ep hp (fun st h => fun hst => hc (by rw [h, hst]))]
    show finalStatuses (pPrefix refP ep ++ [Event.unregister]) = []
    rw [finalStatuses_append, finalStatuses_pPrefix]
    rfl
  · -- postproc outcome
    by_cases hc : ep.claim = .ok .RUNNING
    · exact (postprocRun_shape_acquired refP ep hp hc).choose_spec.choose_spec.2.1
    · rw [postprocRun_shape_unacquired refP ep hp
        (fun st h => fun hst => hc (by rw [h, hst]))]

theorem finalizer_update_contract_witness :
    mEnvOk.inRegistry = false ∧
      (finalStatuses (meshingRun "workspace://SpacesStore/s1" mEnvOk).trace).length = 1 :=
  ⟨rfl,
    (finalizer_update_contract "workspace://SpacesStore/s1" "workspace://SpacesStore/sim1"
      "workspace://SpacesStore/s1" mEnvOk sEnvOk pEnvOk rfl rfl rfl).1.1⟩
